import Mathlib

/-!
Shallow embedding of the inventory / order-fulfillment core of
src/DigiAssets.py (FastAPI + SQLAlchemy, single file).

Quantities are exact fixed-point decimals in the source (DECIMAL(15,3)
columns, DECIMAL(15,2) for money): every value is an integer multiple of
its smallest unit, so a quantity is modelled by its integer numerator in
that unit; all comparisons, additions and subtractions of the source are
then literally integer arithmetic.  Database tables become lists of
records; SQLAlchemy's
query(...).first() becomes List.find?, and an in-place update of the
first matching row becomes updateFirst.  Each HTTP endpoint becomes a
pure function DB -> Except ApiError DB: raising HTTPException before
db.commit() rolls the request's session back, so an error result
carries no state change.  datetime.utcnow() (second resolution, used
by generate_transaction_number) is modelled by a time oracle
times : Nat -> Nat giving the timestamp observed by the k-th generator
call of the request; the real clock is non-decreasing and may return
the same second repeatedly.
-/

namespace DigiAssets

abbrev Qty := Int

/-- Mirror of the InventoryItem ORM model (the stock ledger row, one per item). -/
structure InventoryItemRow where
  item_master_id : Nat
  current_quantity : Qty
  reserved_quantity : Qty
  returnable_quantity : Qty
  available_quantity : Qty
  deriving DecidableEq

/-- Mirror of the OrderItem ORM model. -/
structure OrderItemRec where
  id : Nat
  item_master_id : Nat
  requested_quantity : Qty
  fulfilled_quantity : Qty
  returnable_quantity : Qty
  unit_price : Qty
  total_price : Qty
  status : String
  deriving DecidableEq

/-- Mirror of the Order ORM model; the order_items relationship is held inline. -/
structure OrderRec where
  id : Nat
  order_number : String
  order_status : String
  order_items : List OrderItemRec
  deriving DecidableEq

/-- Mirror of the InventoryTransaction ORM model (fields the core reads or writes;
descriptive fields such as vendor_customer and the timestamps are dropped). -/
structure TransactionRec where
  id : Nat
  transaction_number : String
  item_master_id : Nat
  order_id : Option Nat
  transaction_type : String
  transaction_sub_type : String
  quantity : Qty
  returnable_quantity : Qty
  unit_cost : Qty
  total_cost : Qty
  reference_number : String
  status : String
  deriving DecidableEq

/-- The persistent store: the four tables the core touches, plus the
autoincrement counter for transaction primary keys. -/
structure DB where
  item_master_ids : List Nat
  inventory_items : List InventoryItemRow
  orders : List OrderRec
  transactions : List TransactionRec
  next_txn_id : Nat
  deriving DecidableEq

/-- One entry of the aggregate stock report built by bulk_fulfill_order's
pre-check (the item is identified by id rather than by its code string). -/
structure StockIssue where
  item_master_id : Nat
  needed : Qty
  available : Qty
  deriving DecidableEq

/-- The HTTPException raise sites of the embedded endpoints, as a closed error type. -/
inductive ApiError where
  | notFound (what : String)
  | orderNotPending
  | exceedsRemaining (requested remaining : Qty)
  | insufficientStock
  | insufficientStockFulfill (available needed : Qty)
  | insufficientStockBulk (issues : List StockIssue)
  | insufficientStockOrderItem (item_master_id : Nat)
  | alreadyProcessed
  | exceedsOutstanding
  | internalError
  deriving DecidableEq

/-- In-place mutation of the first row matched by a query, as SQLAlchemy's
query(...).first() followed by attribute assignment behaves. -/
def updateFirst (p : α → Bool) (f : α → α) : List α → List α
  | [] => []
  | x :: xs => if p x then f x :: xs else x :: updateFirst p f xs

/-- generate_transaction_number: "TXN" followed by the current UTC time
formatted at one-second resolution (modelled by the Nat t). -/
def genTransactionNumber (t : Nat) : String :=
  "TXN" ++ toString t

def findInventoryItem (db : DB) (item_id : Nat) : Option InventoryItemRow :=
  db.inventory_items.find? (fun r => r.item_master_id == item_id)

/-- get_available_stock over a raw row list (current - reserved; 0 when no row). -/
def availOf (inv : List InventoryItemRow) (item_id : Nat) : Qty :=
  match inv.find? (fun r => r.item_master_id == item_id) with
  | some r => r.current_quantity - r.reserved_quantity
  | none => 0

/-- get_available_stock of the source: current - reserved of the item's ledger
row, 0 when the item has no row. -/
def get_available_stock (db : DB) (item_id : Nat) : Qty :=
  availOf db.inventory_items item_id

def findTransaction (db : DB) (tid : Nat) : Option TransactionRec :=
  db.transactions.find? (fun t => t.id == tid)

def findOrder (db : DB) (oid : Nat) : Option OrderRec :=
  db.orders.find? (fun o => o.id == oid)

def findOrderItem (db : DB) (oid iid : Nat) : Option OrderItemRec :=
  (findOrder db oid).bind (fun o => o.order_items.find? (fun it => it.id == iid))

/-- POST /inventory/transactions: validates the item, computes total_cost,
persists a new transaction; the status column default makes it PENDING.
No ledger row is read or written. -/
def create_inventory_transaction (item_master_id : Nat)
    (transaction_type transaction_sub_type : String)
    (quantity returnable_quantity unit_cost : Qty) (reference_number : String)
    (times : Nat → Nat) (db : DB) : Except ApiError DB :=
  if db.item_master_ids.contains item_master_id then
    let txn : TransactionRec :=
      { id := db.next_txn_id
        transaction_number := genTransactionNumber (times 0)
        item_master_id := item_master_id
        order_id := none
        transaction_type := transaction_type
        transaction_sub_type := transaction_sub_type
        quantity := quantity
        returnable_quantity := returnable_quantity
        unit_cost := unit_cost
        total_cost := quantity * unit_cost
        reference_number := reference_number
        status := "PENDING" }
    .ok { db with transactions := db.transactions ++ [txn],
                  next_txn_id := db.next_txn_id + 1 }
  else .error (.notFound "Item not found")

/-- The type-dispatched quantity update of confirm_inventory_transaction
(the block updating quantities based on transaction type). -/
def applyMovement (txn : TransactionRec) (row : InventoryItemRow) :
    Except ApiError InventoryItemRow :=
  if txn.transaction_type = "IN" then
    .ok { row with
      current_quantity := row.current_quantity + txn.quantity
      returnable_quantity :=
        if txn.transaction_sub_type = "CUSTOMER_RETURN" then
          row.returnable_quantity - txn.quantity
        else row.returnable_quantity }
  else if txn.transaction_type = "OUT" then
    if row.current_quantity < txn.quantity then .error .insufficientStock
    else
      .ok { row with
        current_quantity := row.current_quantity - txn.quantity
        returnable_quantity :=
          if txn.returnable_quantity > 0 then
            row.returnable_quantity + txn.returnable_quantity
          else row.returnable_quantity }
  else if txn.transaction_type = "ADJUST" then
    .ok { row with current_quantity := txn.quantity }
  else .ok row

/-- The zero ledger row confirm_inventory_transaction lazily creates for an
item with no existing row. -/
def lazyRow (item_id : Nat) : InventoryItemRow :=
  { item_master_id := item_id
    current_quantity := 0
    reserved_quantity := 0
    returnable_quantity := 0
    available_quantity := 0 }

/-- The body of confirm_inventory_transaction once the transaction has been
loaded and found PENDING: apply the movement to the (lazily created) ledger
row, recompute available, mark the transaction CONFIRMED. -/
def confirmApply (transaction_id : Nat) (db : DB) (txn : TransactionRec) :
    Except ApiError DB :=
  let found := findInventoryItem db txn.item_master_id
  let row := found.getD (lazyRow txn.item_master_id)
  match applyMovement txn row with
  | .error e => .error e
  | .ok row1 =>
    let row2 := { row1 with
      available_quantity := row1.current_quantity - row1.reserved_quantity }
    let inv' :=
      match found with
      | some _ =>
        updateFirst (fun r => r.item_master_id == txn.item_master_id)
          (fun _ => row2) db.inventory_items
      | none => db.inventory_items ++ [row2]
    let txns' := updateFirst (fun t => t.id == transaction_id)
      (fun t => { t with status := "CONFIRMED" }) db.transactions
    .ok { db with inventory_items := inv', transactions := txns' }

/-- POST /inventory/transactions/(id)/confirm: fails NotFound when the
transaction is missing and AlreadyProcessed when it is not PENDING;
otherwise applies its ledger effect and marks it CONFIRMED. -/
def confirm_inventory_transaction (transaction_id : Nat) (db : DB) :
    Except ApiError DB :=
  match findTransaction db transaction_id with
  | none => .error (.notFound "Transaction not found")
  | some txn =>
    if txn.status ≠ "PENDING" then .error .alreadyProcessed
    else confirmApply transaction_id db txn

/-- The mutation block of fulfill_order_item once every check has passed:
create one pre-CONFIRMED OUT transaction, drive the ledger row (when one
exists), advance the order item, recompute the item status and then the
order status. -/
def fulfillItemApply (order_id order_item_id : Nat)
    (fulfill_quantity extra_quantity : Qty) (times : Nat → Nat) (db : DB)
    (order : OrderRec) (order_item : OrderItemRec) : DB :=
  let total_needed := fulfill_quantity + extra_quantity
  let txn : TransactionRec :=
    { id := db.next_txn_id
      transaction_number := genTransactionNumber (times 0)
      item_master_id := order_item.item_master_id
      order_id := some order_id
      transaction_type := "OUT"
      transaction_sub_type := "ORDER_FULFILLMENT"
      quantity := total_needed
      returnable_quantity := extra_quantity
      unit_cost := order_item.unit_price
      total_cost := total_needed * order_item.unit_price
      reference_number := order.order_number
      status := "CONFIRMED" }
  let inv' := updateFirst
    (fun r => r.item_master_id == order_item.item_master_id)
    (fun r =>
      let c := r.current_quantity - total_needed
      { r with
        current_quantity := c
        returnable_quantity :=
          if extra_quantity > 0 then
            r.returnable_quantity + extra_quantity
          else r.returnable_quantity
        available_quantity := c - r.reserved_quantity })
    db.inventory_items
  let item1 := { order_item with
    fulfilled_quantity := order_item.fulfilled_quantity + fulfill_quantity
    returnable_quantity :=
      if extra_quantity > 0 then
        order_item.returnable_quantity + extra_quantity
      else order_item.returnable_quantity }
  let item2 := { item1 with
    status :=
      if item1.fulfilled_quantity ≥ order_item.requested_quantity then
        "FULFILLED"
      else "PARTIAL" }
  let items' := updateFirst (fun it => it.id == order_item_id)
    (fun _ => item2) order.order_items
  let all_items_fulfilled := items'.all
    (fun it => decide (it.fulfilled_quantity ≥ it.requested_quantity))
  let order' := { order with
    order_items := items'
    order_status :=
      if all_items_fulfilled then "FULFILLED" else "PROCESSING" }
  let orders' := updateFirst (fun o => o.id == order_id)
    (fun _ => order') db.orders
  { db with
    orders := orders'
    inventory_items := inv'
    transactions := db.transactions ++ [txn]
    next_txn_id := db.next_txn_id + 1 }

/-- POST /orders/(order_id)/fulfill-item: validates order, order item and
PENDING status, rejects fulfill_quantity beyond the remaining quantity and
totals beyond available stock, then creates one pre-CONFIRMED OUT
transaction, drives the ledger, advances the order item and recomputes the
item and order statuses. -/
def fulfill_order_item (order_id order_item_id : Nat)
    (fulfill_quantity extra_quantity : Qty)
    (times : Nat → Nat) (db : DB) : Except ApiError DB :=
  match findOrder db order_id with
  | none => .error (.notFound "Order not found")
  | some order =>
    match order.order_items.find? (fun it => it.id == order_item_id) with
    | none => .error (.notFound "Order item not found")
    | some order_item =>
      if order.order_status ≠ "PENDING" then .error .orderNotPending
      else if fulfill_quantity >
          order_item.requested_quantity - order_item.fulfilled_quantity then
        .error (.exceedsRemaining fulfill_quantity
          (order_item.requested_quantity - order_item.fulfilled_quantity))
      else if fulfill_quantity + extra_quantity >
          get_available_stock db order_item.item_master_id then
        .error (.insufficientStockFulfill
          (get_available_stock db order_item.item_master_id)
          (fulfill_quantity + extra_quantity))
      else
        .ok (fulfillItemApply order_id order_item_id fulfill_quantity
          extra_quantity times db order order_item)

/-- The stock_issues list built by bulk_fulfill_order's pre-check: every order
item whose positive remaining quantity exceeds its available stock. -/
def bulkIssues (db : DB) (items : List OrderItemRec) : List StockIssue :=
  items.filterMap (fun it =>
    let remaining := it.requested_quantity - it.fulfilled_quantity
    if remaining > 0 then
      let available := get_available_stock db it.item_master_id
      if remaining > available then
        some { item_master_id := it.item_master_id
               needed := remaining
               available := available }
      else none
    else none)

/-- The per-item processing loop of bulk_fulfill_order: each item with a
positive remaining quantity gets a CONFIRMED OUT transaction for that
remainder, the ledger row (when present) is decremented in the running
session state, and the item is driven to fulfilled = requested. -/
def bulkProcessItems (order_id0 : Nat) (order_number : String)
    (times : Nat → Nat) :
    List OrderItemRec → List InventoryItemRow → Nat → Nat →
    List OrderItemRec × List InventoryItemRow × List TransactionRec
  | [], inv, _, _ => ([], inv, [])
  | it :: rest, inv, next_id, k =>
    let remaining := it.requested_quantity - it.fulfilled_quantity
    if remaining > 0 then
      let txn : TransactionRec :=
        { id := next_id
          transaction_number := genTransactionNumber (times k)
          item_master_id := it.item_master_id
          order_id := some order_id0
          transaction_type := "OUT"
          transaction_sub_type := "ORDER_FULFILLMENT"
          quantity := remaining
          returnable_quantity := 0
          unit_cost := it.unit_price
          total_cost := remaining * it.unit_price
          reference_number := order_number
          status := "CONFIRMED" }
      let inv' := updateFirst (fun r => r.item_master_id == it.item_master_id)
        (fun r =>
          let c := r.current_quantity - remaining
          { r with current_quantity := c
                   available_quantity := c - r.reserved_quantity }) inv
      let res := bulkProcessItems order_id0 order_number times rest inv'
        (next_id + 1) (k + 1)
      ({ it with fulfilled_quantity := it.requested_quantity
                 status := "FULFILLED" } :: res.1, res.2.1, txn :: res.2.2)
    else
      let res := bulkProcessItems order_id0 order_number times rest inv next_id k
      (it :: res.1, res.2.1, res.2.2)

/-- The mutation block of bulk_fulfill_order after its pre-check has passed:
process every item and mark the order FULFILLED. -/
def bulkApply (order_id : Nat) (times : Nat → Nat) (db : DB)
    (order : OrderRec) : DB :=
  let res := bulkProcessItems order_id order.order_number times
    order.order_items db.inventory_items db.next_txn_id 0
  let order' := { order with order_items := res.1,
                             order_status := "FULFILLED" }
  { db with
    orders := updateFirst (fun o => o.id == order_id) (fun _ => order')
      db.orders
    inventory_items := res.2.1
    transactions := db.transactions ++ res.2.2
    next_txn_id := db.next_txn_id + res.2.2.length }

/-- POST /orders/(order_id)/bulk-fulfill: requires a PENDING order, performs
the all-or-nothing stock pre-check over every item, then processes each item
and marks the order FULFILLED. -/
def bulk_fulfill_order (order_id : Nat) (times : Nat → Nat) (db : DB) :
    Except ApiError DB :=
  match findOrder db order_id with
  | none => .error (.notFound "Order not found")
  | some order =>
    if order.order_status ≠ "PENDING" then .error .orderNotPending
    else
      if bulkIssues db order.order_items ≠ [] then
        .error (.insufficientStockBulk (bulkIssues db order.order_items))
      else .ok (bulkApply order_id times db order)

/-- The stock pre-check loop of fulfill_order: raises on the first item whose
ledger row is missing or whose stored available_quantity is below the
requested quantity. -/
def fulfillOrderPrecheck (db : DB) : List OrderItemRec → Option Nat
  | [] => none
  | it :: rest =>
    match findInventoryItem db it.item_master_id with
    | none => some it.item_master_id
    | some r =>
      if r.available_quantity < it.requested_quantity then
        some it.item_master_id
      else fulfillOrderPrecheck db rest

/-- The per-item processing loop of fulfill_order: every item (the remaining
quantity is not consulted) gets a CONFIRMED OUT transaction for the full
requested quantity; a missing ledger row would crash the handler
(AttributeError, surfaced as a 500 with the session rolled back). -/
def fulfillProcessItems (order_id0 : Nat) (order_number : String)
    (times : Nat → Nat) :
    List OrderItemRec → List InventoryItemRow → Nat → Nat →
    Except ApiError (List OrderItemRec × List InventoryItemRow × List TransactionRec)
  | [], inv, _, _ => .ok ([], inv, [])
  | it :: rest, inv, next_id, k =>
    match inv.find? (fun r => r.item_master_id == it.item_master_id) with
    | none => .error .internalError
    | some _ =>
      let txn : TransactionRec :=
        { id := next_id
          transaction_number := genTransactionNumber (times k)
          item_master_id := it.item_master_id
          order_id := some order_id0
          transaction_type := "OUT"
          transaction_sub_type := "ORDER_FULFILLMENT"
          quantity := it.requested_quantity
          returnable_quantity := 0
          unit_cost := it.unit_price
          total_cost := it.total_price
          reference_number := order_number
          status := "CONFIRMED" }
      let inv' := updateFirst (fun r => r.item_master_id == it.item_master_id)
        (fun r =>
          let c := r.current_quantity - it.requested_quantity
          { r with current_quantity := c
                   available_quantity := c - r.reserved_quantity }) inv
      match fulfillProcessItems order_id0 order_number times rest inv'
        (next_id + 1) (k + 1) with
      | .error e => .error e
      | .ok res =>
        .ok ({ it with fulfilled_quantity := it.requested_quantity
                       status := "FULFILLED" } :: res.1, res.2.1, txn :: res.2.2)

/-- The mutation block of fulfill_order after its pre-check has passed:
process every item in full and mark the order FULFILLED. -/
def fulfillOrderApply (order_id : Nat) (times : Nat → Nat) (db : DB)
    (order : OrderRec) : Except ApiError DB :=
  match fulfillProcessItems order_id order.order_number times
    order.order_items db.inventory_items db.next_txn_id 0 with
  | .error e => .error e
  | .ok res =>
    let order' := { order with order_items := res.1,
                               order_status := "FULFILLED" }
    .ok { db with
      orders := updateFirst (fun o => o.id == order_id) (fun _ => order')
        db.orders
      inventory_items := res.2.1
      transactions := db.transactions ++ res.2.2
      next_txn_id := db.next_txn_id + res.2.2.length }

/-- POST /orders/(order_id)/fulfill: requires a PENDING order, pre-checks each
item's stored available_quantity against its requested_quantity (raising on
the first offender), then fulfills every item in full and marks the order
FULFILLED. -/
def fulfill_order (order_id : Nat) (times : Nat → Nat) (db : DB) :
    Except ApiError DB :=
  match findOrder db order_id with
  | none => .error (.notFound "Order not found")
  | some order =>
    if order.order_status ≠ "PENDING" then .error .orderNotPending
    else
      match fulfillOrderPrecheck db order.order_items with
      | some bad => .error (.insufficientStockOrderItem bad)
      | none => fulfillOrderApply order_id times db order

/-- The returned-so-far aggregate of process_return: the sum of quantities of
all CONFIRMED CUSTOMER_RETURN transactions referencing the original
transaction's number (the SQL SUM with scalar() or 0). -/
def returnedSoFar (db : DB) (orig_number : String) : Qty :=
  (db.transactions.filter (fun t =>
      t.reference_number == orig_number &&
      t.transaction_sub_type == "CUSTOMER_RETURN" &&
      t.status == "CONFIRMED")).foldr (fun t acc => t.quantity + acc) 0

/-- The PENDING IN CUSTOMER_RETURN transaction that process_return records,
linked to the original transaction by reference_number. -/
def returnTransactionRec (returned_quantity : Qty) (times : Nat → Nat)
    (db : DB) (original_txn : TransactionRec) : TransactionRec :=
  { id := db.next_txn_id
    transaction_number := genTransactionNumber (times 0)
    item_master_id := original_txn.item_master_id
    order_id := original_txn.order_id
    transaction_type := "IN"
    transaction_sub_type := "CUSTOMER_RETURN"
    quantity := returned_quantity
    returnable_quantity := 0
    unit_cost := original_txn.unit_cost
    total_cost := returned_quantity * original_txn.unit_cost
    reference_number := original_txn.transaction_number
    status := "PENDING" }

/-- POST /inventory/process-return: loads the original transaction, rejects
returns beyond the outstanding returnable quantity, and records a PENDING IN
CUSTOMER_RETURN transaction linked back by reference_number; no ledger row is
touched.  The condition string only feeds the free-text remarks, which this
embedding drops. -/
def process_return (transaction_id : Nat) (returned_quantity : Qty)
    (times : Nat → Nat) (db : DB) : Except ApiError DB :=
  match findTransaction db transaction_id with
  | none => .error (.notFound "Original transaction not found")
  | some original_txn =>
    if returned_quantity > original_txn.returnable_quantity -
        returnedSoFar db original_txn.transaction_number then
      .error .exceedsOutstanding
    else
      .ok { db with
        transactions := db.transactions ++
          [returnTransactionRec returned_quantity times db original_txn]
        next_txn_id := db.next_txn_id + 1 }

/-- Modelled from the spec: the pure order-item status function of the data
model section (FULFILLED iff fulfilled equals requested, PARTIAL iff strictly
between 0 and requested, else PENDING).  Used only to compare the code's
status assignment against the spec's wording. -/
def specItemStatus (fulfilled requested : Qty) : String :=
  if fulfilled = requested then "FULFILLED"
  else if 0 < fulfilled ∧ fulfilled < requested then "PARTIAL"
  else "PENDING"

/-- All ledger rows carry a zero reserved_quantity (every row this code ever
creates starts that way and no operation writes the field). -/
def ReservedZero (db : DB) : Prop :=
  ∀ r ∈ db.inventory_items, r.reserved_quantity = 0

/-- All ledger rows carry a non-negative physical quantity. -/
def CurrentNonneg (db : DB) : Prop :=
  ∀ r ∈ db.inventory_items, 0 ≤ r.current_quantity

/-- All ledger rows satisfy the derived-column equation
available = current - reserved. -/
def AvailConsistent (db : DB) : Prop :=
  ∀ r ∈ db.inventory_items, r.available_quantity =
    r.current_quantity - r.reserved_quantity

/-! Generic facts about updateFirst and find?. -/

theorem all_updateFirst {α : Type _} {p : α → Bool} {f : α → α} {Q : α → Prop} :
    ∀ (l : List α), (∀ x ∈ l, Q x) → (∀ x, l.find? p = some x → Q (f x)) →
    ∀ x ∈ updateFirst p f l, Q x := by
  intro l
  induction l with
  | nil => intro _ _ x hx; simp [updateFirst] at hx
  | cons a l ih =>
    intro hall hf x hx
    by_cases hpa : p a
    · rw [updateFirst, if_pos hpa] at hx
      rcases List.mem_cons.mp hx with h | h
      · subst h; exact hf a (List.find?_cons_of_pos _ hpa)
      · exact hall x (List.mem_cons_of_mem _ h)
    · rw [updateFirst, if_neg hpa] at hx
      rcases List.mem_cons.mp hx with h | h
      · rw [h]; exact hall a (List.mem_cons_self a l)
      · exact ih (fun y hy => hall y (List.mem_cons_of_mem _ hy))
          (fun y hy => hf y (by rwa [List.find?_cons_of_neg _ hpa])) x h

theorem find?_updateFirst_of_ne {α : Type _} {p q : α → Bool} {f : α → α}
    (hq : ∀ x, q x = true → p x = false)
    (hqf : ∀ x, q x = true → p (f x) = false) :
    ∀ l : List α, (updateFirst q f l).find? p = l.find? p := by
  intro l
  induction l with
  | nil => rfl
  | cons a l ih =>
    by_cases hqa : q a
    · rw [updateFirst, if_pos hqa,
        List.find?_cons_of_neg _ (by simp [hqf a hqa]),
        List.find?_cons_of_neg _ (by simp [hq a hqa])]
    · rw [updateFirst, if_neg hqa]
      by_cases hpa : p a
      · rw [List.find?_cons_of_pos _ hpa, List.find?_cons_of_pos _ hpa]
      · rw [List.find?_cons_of_neg _ hpa, List.find?_cons_of_neg _ hpa, ih]

theorem find?_updateFirst_self {α : Type _} {q : α → Bool} {f : α → α}
    (hf : ∀ x, q x = true → q (f x) = true) :
    ∀ l : List α, (updateFirst q f l).find? q = (l.find? q).map f := by
  intro l
  induction l with
  | nil => rfl
  | cons a l ih =>
    by_cases hqa : q a
    · rw [updateFirst, if_pos hqa, List.find?_cons_of_pos _ (hf a hqa),
        List.find?_cons_of_pos _ hqa]
      rfl
    · rw [updateFirst, if_neg hqa, List.find?_cons_of_neg _ hqa,
        List.find?_cons_of_neg _ hqa, ih]

theorem find?_append_left_none {α : Type _} {p : α → Bool} {l1 l2 : List α}
    (h : l1.find? p = none) : (l1 ++ l2).find? p = l2.find? p := by
  induction l1 with
  | nil => rfl
  | cons a l ih =>
    by_cases hpa : p a
    · rw [List.find?_cons_of_pos _ hpa] at h; cases h
    · rw [List.cons_append, List.find?_cons_of_neg _ hpa]
      exact ih (by rwa [List.find?_cons_of_neg _ hpa] at h)

/-! Inversion lemmas: what a successful call tells us about the checks it
passed and the state it produced. -/

theorem create_inventory_transaction_ok {i : Nat} {tt ts rn : String}
    {q rq uc : Qty} {times : Nat → Nat} {db db' : DB}
    (h : create_inventory_transaction i tt ts q rq uc rn times db = .ok db') :
    db'.inventory_items = db.inventory_items ∧ db'.orders = db.orders := by
  unfold create_inventory_transaction at h
  split at h
  · cases h; exact ⟨rfl, rfl⟩
  · cases h

theorem confirm_inventory_transaction_ok {tid : Nat} {db db' : DB}
    (h : confirm_inventory_transaction tid db = .ok db') :
    ∃ txn, findTransaction db tid = some txn ∧ txn.status = "PENDING" ∧
      confirmApply tid db txn = .ok db' := by
  unfold confirm_inventory_transaction at h
  split at h
  next => cases h
  next txn hfind =>
    split at h
    next => cases h
    next hst => exact ⟨txn, hfind, not_not.mp hst, h⟩

theorem confirmApply_ok {tid : Nat} {db db' : DB} {txn : TransactionRec}
    (h : confirmApply tid db txn = .ok db') :
    ∃ row1,
      applyMovement txn
        ((findInventoryItem db txn.item_master_id).getD
          (lazyRow txn.item_master_id)) = .ok row1 ∧
      db'.orders = db.orders ∧
      db'.inventory_items =
        (match findInventoryItem db txn.item_master_id with
         | some _ =>
           updateFirst (fun r => r.item_master_id == txn.item_master_id)
             (fun _ => { row1 with available_quantity :=
               row1.current_quantity - row1.reserved_quantity })
             db.inventory_items
         | none => db.inventory_items ++
             [{ row1 with available_quantity :=
               row1.current_quantity - row1.reserved_quantity }]) ∧
      db'.transactions = updateFirst (fun t => t.id == tid)
        (fun t => { t with status := "CONFIRMED" }) db.transactions := by
  unfold confirmApply at h
  simp only [] at h
  split at h
  next => cases h
  next row1 hstep =>
    cases h
    refine ⟨row1, hstep, rfl, ?_, rfl⟩
    cases hfound : findInventoryItem db txn.item_master_id <;>
      simp only [hfound]

theorem fulfill_order_item_ok {oid iid : Nat} {fq eq : Qty}
    {times : Nat → Nat} {db db' : DB}
    (h : fulfill_order_item oid iid fq eq times db = .ok db') :
    ∃ order order_item,
      findOrder db oid = some order ∧
      order.order_items.find? (fun it => it.id == iid) = some order_item ∧
      order.order_status = "PENDING" ∧
      fq ≤ order_item.requested_quantity - order_item.fulfilled_quantity ∧
      fq + eq ≤ get_available_stock db order_item.item_master_id ∧
      db' = fulfillItemApply oid iid fq eq times db order order_item := by
  unfold fulfill_order_item at h
  split at h
  next => cases h
  next order hord =>
    split at h
    next => cases h
    next order_item hit =>
      split at h
      next => cases h
      next hst =>
        split at h
        next => cases h
        next hfq =>
          split at h
          next => cases h
          next hav =>
            cases h
            exact ⟨order, order_item, hord, hit, not_not.mp hst,
              not_lt.mp hfq, not_lt.mp hav, rfl⟩

theorem bulk_fulfill_order_ok {oid : Nat} {times : Nat → Nat} {db db' : DB}
    (h : bulk_fulfill_order oid times db = .ok db') :
    ∃ order,
      findOrder db oid = some order ∧
      order.order_status = "PENDING" ∧
      bulkIssues db order.order_items = [] ∧
      db' = bulkApply oid times db order := by
  unfold bulk_fulfill_order at h
  split at h
  next => cases h
  next order hord =>
    split at h
    next => cases h
    next hst =>
      split at h
      next => cases h
      next hiss =>
        cases h
        exact ⟨order, hord, not_not.mp hst, not_ne_iff.mp hiss, rfl⟩

theorem fulfill_order_ok {oid : Nat} {times : Nat → Nat} {db db' : DB}
    (h : fulfill_order oid times db = .ok db') :
    ∃ order,
      findOrder db oid = some order ∧
      order.order_status = "PENDING" ∧
      fulfillOrderPrecheck db order.order_items = none ∧
      fulfillOrderApply oid times db order = .ok db' := by
  unfold fulfill_order at h
  split at h
  next => cases h
  next order hord =>
    split at h
    next => cases h
    next hst =>
      split at h
      next => cases h
      next hpre => exact ⟨order, hord, not_not.mp hst, hpre, h⟩

theorem fulfillOrderApply_ok {oid : Nat} {times : Nat → Nat} {db db' : DB}
    {order : OrderRec} (h : fulfillOrderApply oid times db order = .ok db') :
    ∃ res, fulfillProcessItems oid order.order_number times
        order.order_items db.inventory_items db.next_txn_id 0 = .ok res ∧
      db' = { db with
        orders := updateFirst (fun o => o.id == oid)
          (fun _ => { order with order_items := res.1,
                                 order_status := "FULFILLED" }) db.orders
        inventory_items := res.2.1
        transactions := db.transactions ++ res.2.2
        next_txn_id := db.next_txn_id + res.2.2.length } := by
  unfold fulfillOrderApply at h
  split at h
  next => cases h
  next res hproc =>
    cases h
    exact ⟨res, hproc, rfl⟩

theorem process_return_ok {tid : Nat} {q : Qty} {times : Nat → Nat}
    {db db' : DB} (h : process_return tid q times db = .ok db') :
    ∃ orig, findTransaction db tid = some orig ∧
      q ≤ orig.returnable_quantity -
        returnedSoFar db orig.transaction_number ∧
      db' = { db with
        transactions := db.transactions ++
          [returnTransactionRec q times db orig]
        next_txn_id := db.next_txn_id + 1 } := by
  unfold process_return at h
  split at h
  next => cases h
  next orig hfind =>
    split at h
    next => cases h
    next hq =>
      cases h
      exact ⟨orig, hfind, not_lt.mp hq, rfl⟩

/-! Error-path facts. -/

theorem confirm_not_pending {tid : Nat} {db : DB} {txn : TransactionRec}
    (hfind : findTransaction db tid = some txn)
    (hst : txn.status ≠ "PENDING") :
    confirm_inventory_transaction tid db = .error .alreadyProcessed := by
  unfold confirm_inventory_transaction
  rw [hfind]
  simp only [if_pos hst]

theorem fulfill_order_item_not_pending {oid iid : Nat} {fq eq : Qty}
    {times : Nat → Nat} {db : DB} {order : OrderRec}
    {order_item : OrderItemRec}
    (hord : findOrder db oid = some order)
    (hit : order.order_items.find? (fun it => it.id == iid) = some order_item)
    (hst : order.order_status ≠ "PENDING") :
    fulfill_order_item oid iid fq eq times db = .error .orderNotPending := by
  unfold fulfill_order_item
  rw [hord]
  simp only [hit, if_pos hst]

theorem bulk_fulfill_order_not_pending {oid : Nat} {times : Nat → Nat}
    {db : DB} {order : OrderRec}
    (hord : findOrder db oid = some order)
    (hst : order.order_status ≠ "PENDING") :
    bulk_fulfill_order oid times db = .error .orderNotPending := by
  unfold bulk_fulfill_order
  rw [hord]
  simp only [if_pos hst]

theorem fulfill_order_not_pending {oid : Nat} {times : Nat → Nat}
    {db : DB} {order : OrderRec}
    (hord : findOrder db oid = some order)
    (hst : order.order_status ≠ "PENDING") :
    fulfill_order oid times db = .error .orderNotPending := by
  unfold fulfill_order
  rw [hord]
  simp only [if_pos hst]

/-! Facts about the per-item processing loops and pre-checks. -/

theorem availOf_updateFirst_of_ne {i j : Nat}
    {f : InventoryItemRow → InventoryItemRow}
    (hf : ∀ r, (f r).item_master_id = r.item_master_id) (hij : i ≠ j)
    (inv : List InventoryItemRow) :
    availOf (updateFirst (fun r => r.item_master_id == i) f inv) j =
      availOf inv j := by
  unfold availOf
  rw [find?_updateFirst_of_ne]
  · intro x hx
    have : x.item_master_id = i := by simpa using hx
    simp [this, hij]
  · intro x hx
    have : x.item_master_id = i := by simpa using hx
    simp [hf x, this, hij]

theorem bulkProcessItems_inv_pres {oid : Nat} {onum : String}
    {times : Nat → Nat} (Q : InventoryItemRow → Prop)
    (hQ : ∀ r (q : Qty), Q r →
      Q { r with current_quantity := r.current_quantity - q,
                 available_quantity :=
                   r.current_quantity - q - r.reserved_quantity }) :
    ∀ (items : List OrderItemRec) (inv : List InventoryItemRow)
      (next k : Nat), (∀ r ∈ inv, Q r) →
      ∀ r ∈ (bulkProcessItems oid onum times items inv next k).2.1, Q r := by
  intro items
  induction items with
  | nil => intro inv next k hQinv r hr; exact hQinv r hr
  | cons it rest ih =>
    intro inv next k hQinv r hr
    rw [bulkProcessItems] at hr
    by_cases hrem : it.requested_quantity - it.fulfilled_quantity > 0
    · rw [if_pos hrem] at hr
      exact ih _ _ _
        (all_updateFirst _ hQinv
          (fun x hx => hQ x _ (hQinv x (List.mem_of_find?_eq_some hx)))) r hr
    · rw [if_neg hrem] at hr
      exact ih _ _ _ hQinv r hr

theorem fulfillProcessItems_inv_pres {oid : Nat} {onum : String}
    {times : Nat → Nat} (Q : InventoryItemRow → Prop)
    (hQ : ∀ r (q : Qty), Q r →
      Q { r with current_quantity := r.current_quantity - q,
                 available_quantity :=
                   r.current_quantity - q - r.reserved_quantity }) :
    ∀ (items : List OrderItemRec) (inv : List InventoryItemRow)
      (next k : Nat) res,
      fulfillProcessItems oid onum times items inv next k = .ok res →
      (∀ r ∈ inv, Q r) → ∀ r ∈ res.2.1, Q r := by
  intro items
  induction items with
  | nil =>
    intro inv next k res h hQinv r hr
    rw [fulfillProcessItems] at h
    cases h
    exact hQinv r hr
  | cons it rest ih =>
    intro inv next k res h hQinv r hr
    rw [fulfillProcessItems] at h
    split at h
    next => cases h
    next r0 hr0 =>
      simp only [] at h
      split at h
      next => cases h
      next res0 hres0 =>
        cases h
        exact ih _ _ _ _ hres0
          (all_updateFirst _ hQinv
            (fun x hx => hQ x _ (hQinv x (List.mem_of_find?_eq_some hx)))) r hr

theorem bulkProcessItems_nonneg {oid : Nat} {onum : String}
    {times : Nat → Nat} :
    ∀ (items : List OrderItemRec) (inv : List InventoryItemRow)
      (next k : Nat),
    (∀ r ∈ inv, 0 ≤ r.current_quantity) →
    (∀ r ∈ inv, r.reserved_quantity = 0) →
    (items.map (fun it => it.item_master_id)).Nodup →
    (∀ it ∈ items, 0 < it.requested_quantity - it.fulfilled_quantity →
      it.requested_quantity - it.fulfilled_quantity ≤
        availOf inv it.item_master_id) →
    ∀ r ∈ (bulkProcessItems oid onum times items inv next k).2.1,
      0 ≤ r.current_quantity := by
  intro items
  induction items with
  | nil => intro inv next k h0 _ _ _ r hr; exact h0 r hr
  | cons it rest ih =>
    intro inv next k h0 hres hnd hbound r hr
    have hnd' : (rest.map (fun it => it.item_master_id)).Nodup :=
      (List.nodup_cons.mp (by simpa using hnd)).2
    have hhead : it.item_master_id ∉
        rest.map (fun it => it.item_master_id) :=
      (List.nodup_cons.mp (by simpa using hnd)).1
    rw [bulkProcessItems] at hr
    by_cases hrem : it.requested_quantity - it.fulfilled_quantity > 0
    · rw [if_pos hrem] at hr
      refine ih _ _ _ ?_ ?_ hnd' ?_ r hr
      · refine all_updateFirst _ h0 ?_
        intro x hx
        have hx0 : x.reserved_quantity = 0 :=
          hres x (List.mem_of_find?_eq_some hx)
        have hav : availOf inv it.item_master_id = x.current_quantity := by
          unfold availOf
          rw [hx]
          simp [hx0]
        have hb := hbound it (List.mem_cons_self it rest) hrem
        rw [hav] at hb
        show 0 ≤ x.current_quantity -
          (it.requested_quantity - it.fulfilled_quantity)
        exact sub_nonneg.mpr hb
      · refine all_updateFirst _ hres ?_
        intro x hx
        exact hres x (List.mem_of_find?_eq_some hx)
      · intro it2 hit2 hrem2
        rw [availOf_updateFirst_of_ne ?hf ?hij]
        case hf => intro x; rfl
        case hij =>
          intro he
          exact hhead (he ▸ List.mem_map_of_mem _ hit2)
        exact hbound it2 (List.mem_cons_of_mem _ hit2) hrem2
    · rw [if_neg hrem] at hr
      exact ih _ _ _ h0 hres hnd'
        (fun it2 hit2 => hbound it2 (List.mem_cons_of_mem _ hit2)) r hr

theorem fulfillProcessItems_nonneg {oid : Nat} {onum : String}
    {times : Nat → Nat} :
    ∀ (items : List OrderItemRec) (inv : List InventoryItemRow)
      (next k : Nat) res,
    fulfillProcessItems oid onum times items inv next k = .ok res →
    (∀ r ∈ inv, 0 ≤ r.current_quantity) →
    (∀ r ∈ inv, r.reserved_quantity = 0) →
    (items.map (fun it => it.item_master_id)).Nodup →
    (∀ it ∈ items, it.requested_quantity ≤ availOf inv it.item_master_id) →
    ∀ r ∈ res.2.1, 0 ≤ r.current_quantity := by
  intro items
  induction items with
  | nil =>
    intro inv next k res h h0 _ _ _ r hr
    rw [fulfillProcessItems] at h
    cases h
    exact h0 r hr
  | cons it rest ih =>
    intro inv next k res h h0 hres hnd hbound r hr
    have hnd' : (rest.map (fun it => it.item_master_id)).Nodup :=
      (List.nodup_cons.mp (by simpa using hnd)).2
    have hhead : it.item_master_id ∉
        rest.map (fun it => it.item_master_id) :=
      (List.nodup_cons.mp (by simpa using hnd)).1
    rw [fulfillProcessItems] at h
    split at h
    next => cases h
    next r0 hr0 =>
      simp only [] at h
      split at h
      next => cases h
      next res0 hres0 =>
        cases h
        refine ih _ _ _ _ hres0 ?_ ?_ hnd' ?_ r hr
        · refine all_updateFirst _ h0 ?_
          intro x hx
          have hx0 : x.reserved_quantity = 0 :=
            hres x (List.mem_of_find?_eq_some hx)
          have hav : availOf inv it.item_master_id = x.current_quantity := by
            unfold availOf
            rw [hx]
            simp [hx0]
          have hb := hbound it (List.mem_cons_self it rest)
          rw [hav] at hb
          show 0 ≤ x.current_quantity - it.requested_quantity
          exact sub_nonneg.mpr hb
        · refine all_updateFirst _ hres ?_
          intro x hx
          exact hres x (List.mem_of_find?_eq_some hx)
        · intro it2 hit2
          rw [availOf_updateFirst_of_ne ?hf2 ?hij2]
          case hf2 => intro x; rfl
          case hij2 =>
            intro he
            exact hhead (he ▸ List.mem_map_of_mem _ hit2)
          exact hbound it2 (List.mem_cons_of_mem _ hit2)

theorem bulkProcessItems_items_eq {oid : Nat} {onum : String}
    {times : Nat → Nat} :
    ∀ (items : List OrderItemRec) (inv : List InventoryItemRow)
      (next k : Nat),
    (bulkProcessItems oid onum times items inv next k).1 =
      items.map (fun it =>
        if it.requested_quantity - it.fulfilled_quantity > 0 then
          { it with fulfilled_quantity := it.requested_quantity,
                    status := "FULFILLED" }
        else it) := by
  intro items
  induction items with
  | nil => intro inv next k; rfl
  | cons it rest ih =>
    intro inv next k
    rw [bulkProcessItems, List.map_cons]
    by_cases hrem : it.requested_quantity - it.fulfilled_quantity > 0
    · rw [if_pos hrem, if_pos hrem]
      simp [ih]
    · rw [if_neg hrem, if_neg hrem]
      simp [ih]

theorem fulfillProcessItems_items_eq {oid : Nat} {onum : String}
    {times : Nat → Nat} :
    ∀ (items : List OrderItemRec) (inv : List InventoryItemRow)
      (next k : Nat) res,
    fulfillProcessItems oid onum times items inv next k = .ok res →
    res.1 = items.map (fun it =>
      { it with fulfilled_quantity := it.requested_quantity,
                status := "FULFILLED" }) := by
  intro items
  induction items with
  | nil =>
    intro inv next k res h
    rw [fulfillProcessItems] at h
    cases h
    rfl
  | cons it rest ih =>
    intro inv next k res h
    rw [fulfillProcessItems] at h
    split at h
    next => cases h
    next r0 hr0 =>
      simp only [] at h
      split at h
      next => cases h
      next res0 hres0 =>
        cases h
        rw [List.map_cons]
        simp [ih _ _ _ _ hres0]

theorem findOrder_update_of_ne {orders : List OrderRec} {target oid : Nat}
    {order' : OrderRec} (hid : order'.id = target) (hne : oid ≠ target) :
    (updateFirst (fun o => o.id == target) (fun _ => order') orders).find?
      (fun o => o.id == oid) = orders.find? (fun o => o.id == oid) := by
  apply find?_updateFirst_of_ne
  · intro x hx
    have hxt : x.id = target := by simpa using hx
    rw [hxt]
    exact beq_eq_false_iff_ne.mpr (Ne.symm hne)
  · intro x _
    show (order'.id == oid) = false
    rw [hid]
    exact beq_eq_false_iff_ne.mpr (Ne.symm hne)

theorem findOrder_update_self {orders : List OrderRec} {target : Nat}
    {order order' : OrderRec}
    (horder : orders.find? (fun o => o.id == target) = some order)
    (hid : order'.id = order.id) :
    (updateFirst (fun o => o.id == target) (fun _ => order') orders).find?
      (fun o => o.id == target) = some order' := by
  have hkey : order.id = target := by
    simpa using List.find?_some horder
  rw [find?_updateFirst_self, horder]
  · rfl
  · intro x _
    show (order'.id == target) = true
    simp [hid, hkey]

theorem get_available_stock_nonneg {db : DB} (hres : ReservedZero db)
    (hcur : CurrentNonneg db) (i : Nat) : 0 ≤ get_available_stock db i := by
  unfold get_available_stock availOf
  cases hr : db.inventory_items.find? (fun r => r.item_master_id == i) with
  | none => simp
  | some r =>
    have h1 := hres r (List.mem_of_find?_eq_some hr)
    have h2 := hcur r (List.mem_of_find?_eq_some hr)
    simp [h1, h2]

theorem applyMovement_nonneg {txn : TransactionRec} {row row1 : InventoryItemRow}
    (h : applyMovement txn row = .ok row1)
    (hq : 0 ≤ txn.quantity) (hrow : 0 ≤ row.current_quantity) :
    0 ≤ row1.current_quantity := by
  unfold applyMovement at h
  by_cases h1 : txn.transaction_type = "IN"
  · rw [if_pos h1] at h
    cases h
    simpa using add_nonneg hrow hq
  · rw [if_neg h1] at h
    by_cases h2 : txn.transaction_type = "OUT"
    · rw [if_pos h2] at h
      by_cases h3 : row.current_quantity < txn.quantity
      · rw [if_pos h3] at h; cases h
      · rw [if_neg h3] at h
        cases h
        simpa using sub_nonneg.mpr (not_lt.mp h3)
    · rw [if_neg h2] at h
      by_cases h4 : txn.transaction_type = "ADJUST"
      · rw [if_pos h4] at h; cases h; simpa using hq
      · rw [if_neg h4] at h; cases h; exact hrow

theorem confirm_pending_step {tid : Nat} {db : DB} {txn : TransactionRec}
    {row row1 : InventoryItemRow}
    (hfind : findTransaction db tid = some txn)
    (hst : txn.status = "PENDING")
    (hrow : findInventoryItem db txn.item_master_id = some row)
    (hmove : applyMovement txn row = .ok row1) :
    confirm_inventory_transaction tid db = .ok { db with
      inventory_items := updateFirst
        (fun r => r.item_master_id == txn.item_master_id)
        (fun _ => { row1 with available_quantity :=
          row1.current_quantity - row1.reserved_quantity })
        db.inventory_items
      transactions := updateFirst (fun t => t.id == tid)
        (fun t => { t with status := "CONFIRMED" }) db.transactions } := by
  unfold confirm_inventory_transaction
  rw [hfind]
  simp only [if_neg (show ¬ txn.status ≠ "PENDING" from by simp [hst])]
  unfold confirmApply
  simp only [hrow, Option.getD_some, hmove]

theorem bulkIssues_nil_bound {db : DB} {items : List OrderItemRec}
    (h : bulkIssues db items = []) :
    ∀ it ∈ items, 0 < it.requested_quantity - it.fulfilled_quantity →
      it.requested_quantity - it.fulfilled_quantity ≤
        get_available_stock db it.item_master_id := by
  intro it hit hrem
  have hnone := (List.filterMap_eq_nil_iff.mp h) it hit
  by_contra hlt
  push_neg at hlt
  simp only [if_pos hrem, if_pos hlt] at hnone
  cases hnone

theorem mem_bulkIssues {db : DB} {items : List OrderItemRec}
    (hav : ∀ i, 0 ≤ get_available_stock db i) (s : StockIssue) :
    s ∈ bulkIssues db items ↔
      ∃ it ∈ items,
        get_available_stock db it.item_master_id <
          it.requested_quantity - it.fulfilled_quantity ∧
        s = { item_master_id := it.item_master_id,
              needed := it.requested_quantity - it.fulfilled_quantity,
              available := get_available_stock db it.item_master_id } := by
  unfold bulkIssues
  rw [List.mem_filterMap]
  constructor
  · rintro ⟨it, hit, hf⟩
    by_cases hrem : it.requested_quantity - it.fulfilled_quantity > 0
    · simp only [if_pos hrem] at hf
      by_cases hoff : it.requested_quantity - it.fulfilled_quantity >
          get_available_stock db it.item_master_id
      · simp only [if_pos hoff] at hf
        refine ⟨it, hit, hoff, ?_⟩
        injection hf with hf1
        exact hf1.symm
      · simp only [if_neg hoff] at hf; cases hf
    · simp only [if_neg hrem] at hf; cases hf
  · rintro ⟨it, hit, hoff, rfl⟩
    refine ⟨it, hit, ?_⟩
    have hrem : it.requested_quantity - it.fulfilled_quantity > 0 :=
      lt_of_le_of_lt (hav it.item_master_id) hoff
    simp only [if_pos hrem, if_pos hoff]

theorem fulfillOrderPrecheck_none {db : DB} :
    ∀ {items : List OrderItemRec}, fulfillOrderPrecheck db items = none →
    ∀ it ∈ items, ∃ r, findInventoryItem db it.item_master_id = some r ∧
      it.requested_quantity ≤ r.available_quantity := by
  intro items
  induction items with
  | nil => intro _ it hit; cases hit
  | cons a rest ih =>
    intro h it hit
    rw [fulfillOrderPrecheck] at h
    split at h
    next => cases h
    next r hr =>
      split at h
      next => cases h
      next hlt =>
        rcases List.mem_cons.mp hit with he | hm
        · exact ⟨r, he ▸ hr, he ▸ not_lt.mp hlt⟩
        · exact ih h it hm

theorem applyMovement_id {txn : TransactionRec} {row row1 : InventoryItemRow}
    (h : applyMovement txn row = .ok row1) :
    row1.item_master_id = row.item_master_id := by
  unfold applyMovement at h
  by_cases h1 : txn.transaction_type = "IN"
  · rw [if_pos h1] at h; cases h; rfl
  · rw [if_neg h1] at h
    by_cases h2 : txn.transaction_type = "OUT"
    · rw [if_pos h2] at h
      by_cases h3 : row.current_quantity < txn.quantity
      · rw [if_pos h3] at h; cases h
      · rw [if_neg h3] at h; cases h; rfl
    · rw [if_neg h2] at h
      by_cases h4 : txn.transaction_type = "ADJUST"
      · rw [if_pos h4] at h; cases h; rfl
      · rw [if_neg h4] at h; cases h; rfl

theorem confirm_pending_step_err {tid : Nat} {db : DB} {txn : TransactionRec}
    {row : InventoryItemRow} {e : ApiError}
    (hfind : findTransaction db tid = some txn)
    (hst : txn.status = "PENDING")
    (hrow : findInventoryItem db txn.item_master_id = some row)
    (hmove : applyMovement txn row = .error e) :
    confirm_inventory_transaction tid db = .error e := by
  unfold confirm_inventory_transaction
  rw [hfind]
  simp only [if_neg (show ¬ txn.status ≠ "PENDING" from by simp [hst])]
  unfold confirmApply
  simp only [hrow, Option.getD_some, hmove]

theorem confirm_pending_find {tid : Nat} {db : DB} {txn : TransactionRec}
    {row row1 : InventoryItemRow}
    (hfind : findTransaction db tid = some txn)
    (hst : txn.status = "PENDING")
    (hrow : findInventoryItem db txn.item_master_id = some row)
    (hmove : applyMovement txn row = .ok row1) :
    ∃ db', confirm_inventory_transaction tid db = .ok db' ∧
      findInventoryItem db' txn.item_master_id =
        some { row1 with available_quantity :=
          row1.current_quantity - row1.reserved_quantity } := by
  refine ⟨_, confirm_pending_step hfind hst hrow hmove, ?_⟩
  show (updateFirst (fun r => r.item_master_id == txn.item_master_id)
      (fun _ => { row1 with available_quantity :=
        row1.current_quantity - row1.reserved_quantity })
      db.inventory_items).find?
      (fun r => r.item_master_id == txn.item_master_id) = _
  have hrow' : db.inventory_items.find?
      (fun r => r.item_master_id == txn.item_master_id) = some row := hrow
  rw [find?_updateFirst_self ?hf]
  case hf =>
    intro x _
    show ({ row1 with available_quantity :=
      row1.current_quantity - row1.reserved_quantity }.item_master_id ==
        txn.item_master_id) = true
    have hkey := List.find?_some hrow'
    simpa [applyMovement_id hmove] using hkey
  rw [hrow']
  rfl

/-! Concrete states used by witnesses and counterexamples. -/

def wRow1 : InventoryItemRow :=
  { item_master_id := 1, current_quantity := 10, reserved_quantity := 0,
    returnable_quantity := 0, available_quantity := 10 }

def wRow2 : InventoryItemRow :=
  { item_master_id := 2, current_quantity := 10, reserved_quantity := 0,
    returnable_quantity := 0, available_quantity := 10 }

def wItem1 : OrderItemRec :=
  { id := 1, item_master_id := 1, requested_quantity := 5,
    fulfilled_quantity := 0, returnable_quantity := 0, unit_price := 2,
    total_price := 10, status := "PENDING" }

def wItem2 : OrderItemRec :=
  { id := 2, item_master_id := 2, requested_quantity := 4,
    fulfilled_quantity := 0, returnable_quantity := 0, unit_price := 3,
    total_price := 12, status := "PENDING" }

def wOrder : OrderRec :=
  { id := 1, order_number := "ORD1", order_status := "PENDING",
    order_items := [wItem1, wItem2] }

def wDB : DB :=
  { item_master_ids := [1, 2], inventory_items := [wRow1, wRow2],
    orders := [wOrder], transactions := [], next_txn_id := 1 }

/-- A PENDING ADJUST transaction with a negative quantity, as the unvalidated
quantity form field of the manual-entry endpoint permits. -/
def wAdjTxn : TransactionRec :=
  { id := 7, transaction_number := "TXN7", item_master_id := 1,
    order_id := none, transaction_type := "ADJUST",
    transaction_sub_type := "STOCK_TAKE", quantity := -5,
    returnable_quantity := 0, unit_cost := 0, total_cost := 0,
    reference_number := "", status := "PENDING" }

def wDBadj : DB := { wDB with transactions := [wAdjTxn] }

/-- An already-CONFIRMED transaction, for the AlreadyProcessed path. -/
def wConfTxn : TransactionRec :=
  { id := 9, transaction_number := "TXN9", item_master_id := 1,
    order_id := none, transaction_type := "OUT",
    transaction_sub_type := "SALE", quantity := 1,
    returnable_quantity := 0, unit_cost := 0, total_cost := 0,
    reference_number := "", status := "CONFIRMED" }

def wDBconf : DB := { wDB with transactions := [wConfTxn] }

/-- A PENDING IN transaction, for the confirm-movement witness. -/
def wInTxn : TransactionRec :=
  { id := 5, transaction_number := "TXN5", item_master_id := 1,
    order_id := none, transaction_type := "IN",
    transaction_sub_type := "PURCHASE", quantity := 3,
    returnable_quantity := 0, unit_cost := 0, total_cost := 0,
    reference_number := "", status := "PENDING" }

def wDBin : DB := { wDB with transactions := [wInTxn] }

/-- A CONFIRMED returnable OUT transaction, the original of a return chain. -/
def wOutTxn : TransactionRec :=
  { id := 6, transaction_number := "TXN6", item_master_id := 1,
    order_id := none, transaction_type := "OUT",
    transaction_sub_type := "SALE", quantity := 7,
    returnable_quantity := 2, unit_cost := 4, total_cost := 28,
    reference_number := "", status := "CONFIRMED" }

def wDBout : DB := { wDB with transactions := [wOutTxn], next_txn_id := 8 }

/-- A ledger with only 1 unit of item 1, short of the order's 5. -/
def wRowShort : InventoryItemRow :=
  { item_master_id := 1, current_quantity := 1, reserved_quantity := 0,
    returnable_quantity := 0, available_quantity := 1 }

def wDBshort : DB := { wDB with inventory_items := [wRowShort, wRow2] }

/-- A partially fulfilled line of the PROCESSING sample order. -/
def wItem3 : OrderItemRec :=
  { id := 3, item_master_id := 1, requested_quantity := 5,
    fulfilled_quantity := 2, returnable_quantity := 0, unit_price := 2,
    total_price := 10, status := "PARTIAL" }

/-- A second order already in PROCESSING, frozen for the three entry points. -/
def wOrderProc : OrderRec :=
  { id := 2, order_number := "ORD2", order_status := "PROCESSING",
    order_items := [wItem3] }

def wDBproc : DB := { wDB with orders := [wOrder, wOrderProc] }

/-! The claims. -/

/-- Claim C4: a transaction's ledger effect is applied exactly once, at the
moment its status becomes CONFIRMED: creating a PENDING transaction (manual
entry or processReturn) appends one PENDING transaction and leaves every
ledger row unchanged, and confirming a transaction whose status is not
PENDING always fails with AlreadyProcessed (an error result commits
nothing, so no ledger state changes). -/
theorem C4_effect_exactly_once (db : DB) :
    (∀ i tt ts q rq uc rn times db',
      create_inventory_transaction i tt ts q rq uc rn times db = .ok db' →
      db'.inventory_items = db.inventory_items ∧
      ∃ t, db'.transactions = db.transactions ++ [t] ∧
        t.status = "PENDING") ∧
    (∀ tid q times db', process_return tid q times db = .ok db' →
      db'.inventory_items = db.inventory_items ∧
      ∃ t, db'.transactions = db.transactions ++ [t] ∧
        t.status = "PENDING") ∧
    (∀ tid txn, findTransaction db tid = some txn →
      txn.status ≠ "PENDING" →
      confirm_inventory_transaction tid db = .error .alreadyProcessed) := by
  refine ⟨?_, ?_, ?_⟩
  · intro i tt ts q rq uc rn times db' h
    unfold create_inventory_transaction at h
    split at h
    · cases h
      exact ⟨rfl, _, rfl, rfl⟩
    · cases h
  · intro tid q times db' h
    obtain ⟨orig, hfind, hq, rfl⟩ := process_return_ok h
    exact ⟨rfl, _, rfl, rfl⟩
  · intro tid txn hfind hst
    exact confirm_not_pending hfind hst

/-- Claim C4 witness: confirming the already-CONFIRMED transaction 9 fails
with AlreadyProcessed. -/
theorem C4_witness :
    confirm_inventory_transaction 9 wDBconf = .error .alreadyProcessed :=
  (C4_effect_exactly_once wDBconf).2.2 9 wConfTxn (by decide) (by decide)

/-- Claim C5: confirming a PENDING transaction applies the movement to the
item's ledger row according to its type: IN adds quantity to current (and
subtracts it from returnable when the sub-type is CUSTOMER_RETURN); OUT
fails with InsufficientStock when current < quantity (an error commits
nothing), else subtracts quantity from current and adds a positive
transaction returnable_quantity to the ledger returnable; ADJUST sets
current to quantity absolutely. -/
theorem C5_confirm_movement (db : DB) (tid : Nat) (txn : TransactionRec)
    (row : InventoryItemRow)
    (hfind : findTransaction db tid = some txn)
    (hst : txn.status = "PENDING")
    (hrow : findInventoryItem db txn.item_master_id = some row) :
    (txn.transaction_type = "IN" →
      ∃ db' row', confirm_inventory_transaction tid db = .ok db' ∧
        findInventoryItem db' txn.item_master_id = some row' ∧
        row'.current_quantity = row.current_quantity + txn.quantity ∧
        row'.returnable_quantity =
          (if txn.transaction_sub_type = "CUSTOMER_RETURN" then
            row.returnable_quantity - txn.quantity
          else row.returnable_quantity)) ∧
    (txn.transaction_type = "OUT" →
      (row.current_quantity < txn.quantity →
        confirm_inventory_transaction tid db = .error .insufficientStock) ∧
      (txn.quantity ≤ row.current_quantity →
        ∃ db' row', confirm_inventory_transaction tid db = .ok db' ∧
          findInventoryItem db' txn.item_master_id = some row' ∧
          row'.current_quantity = row.current_quantity - txn.quantity ∧
          row'.returnable_quantity =
            (if txn.returnable_quantity > 0 then
              row.returnable_quantity + txn.returnable_quantity
            else row.returnable_quantity))) ∧
    (txn.transaction_type = "ADJUST" →
      ∃ db' row', confirm_inventory_transaction tid db = .ok db' ∧
        findInventoryItem db' txn.item_master_id = some row' ∧
        row'.current_quantity = txn.quantity) := by
  refine ⟨?_, ?_, ?_⟩
  · intro ht
    have hmove : applyMovement txn row = .ok { row with
        current_quantity := row.current_quantity + txn.quantity
        returnable_quantity :=
          if txn.transaction_sub_type = "CUSTOMER_RETURN" then
            row.returnable_quantity - txn.quantity
          else row.returnable_quantity } := by
      unfold applyMovement
      rw [if_pos ht]
    obtain ⟨db', hok, hfindrow⟩ := confirm_pending_find hfind hst hrow hmove
    exact ⟨db', _, hok, hfindrow, rfl, rfl⟩
  · intro ht
    constructor
    · intro hlt
      have hmove : applyMovement txn row = .error .insufficientStock := by
        unfold applyMovement
        rw [if_neg (show ¬ txn.transaction_type = "IN" by simp [ht]),
          if_pos ht, if_pos hlt]
      exact confirm_pending_step_err hfind hst hrow hmove
    · intro hle
      have hmove : applyMovement txn row = .ok { row with
          current_quantity := row.current_quantity - txn.quantity
          returnable_quantity :=
            if txn.returnable_quantity > 0 then
              row.returnable_quantity + txn.returnable_quantity
            else row.returnable_quantity } := by
        unfold applyMovement
        rw [if_neg (show ¬ txn.transaction_type = "IN" by simp [ht]),
          if_pos ht, if_neg (not_lt.mpr hle)]
      obtain ⟨db', hok, hfindrow⟩ := confirm_pending_find hfind hst hrow hmove
      exact ⟨db', _, hok, hfindrow, rfl, rfl⟩
  · intro ht
    have hmove : applyMovement txn row = .ok { row with
        current_quantity := txn.quantity } := by
      unfold applyMovement
      rw [if_neg (show ¬ txn.transaction_type = "IN" by simp [ht]),
        if_neg (show ¬ txn.transaction_type = "OUT" by simp [ht]),
        if_pos ht]
    obtain ⟨db', hok, hfindrow⟩ := confirm_pending_find hfind hst hrow hmove
    exact ⟨db', _, hok, hfindrow, rfl⟩

/-- Claim C5 witness: confirming the PENDING IN transaction 5 (quantity 3,
item 1, stock 10) succeeds and sets current to 13. -/
theorem C5_witness :
    ∃ db' row', confirm_inventory_transaction 5 wDBin = .ok db' ∧
      findInventoryItem db' wInTxn.item_master_id = some row' ∧
      row'.current_quantity = wRow1.current_quantity + wInTxn.quantity ∧
      row'.returnable_quantity =
        (if wInTxn.transaction_sub_type = "CUSTOMER_RETURN" then
          wRow1.returnable_quantity - wInTxn.quantity
        else wRow1.returnable_quantity) :=
  (C5_confirm_movement wDBin 5 wInTxn wRow1 (by decide) (by decide)
    (by decide)).1 (by decide)

/-- Claim C8: processReturn computes returnedSoFar as the sum of quantities
of CONFIRMED CUSTOMER_RETURN transactions whose reference_number equals the
original's transaction number; it fails with ExceedsOutstanding whenever
returnedQuantity exceeds returnable_quantity minus returnedSoFar (an error
commits nothing), and on success appends exactly one PENDING IN
CUSTOMER_RETURN transaction with the quantity, the original's unit_cost and
the original's transaction number as reference_number, touching no ledger
row and no order. -/
theorem C8_process_return_behavior (db : DB) (tid : Nat) (q : Qty)
    (times : Nat → Nat) (orig : TransactionRec)
    (hfind : findTransaction db tid = some orig) :
    (orig.returnable_quantity - returnedSoFar db orig.transaction_number < q →
      process_return tid q times db = .error .exceedsOutstanding) ∧
    (q ≤ orig.returnable_quantity - returnedSoFar db orig.transaction_number →
      process_return tid q times db = .ok { db with
        transactions := db.transactions ++
          [{ id := db.next_txn_id
             transaction_number := genTransactionNumber (times 0)
             item_master_id := orig.item_master_id
             order_id := orig.order_id
             transaction_type := "IN"
             transaction_sub_type := "CUSTOMER_RETURN"
             quantity := q
             returnable_quantity := 0
             unit_cost := orig.unit_cost
             total_cost := q * orig.unit_cost
             reference_number := orig.transaction_number
             status := "PENDING" }]
        next_txn_id := db.next_txn_id + 1 }) := by
  constructor
  · intro hgt
    unfold process_return
    rw [hfind]
    simp only [if_pos hgt]
  · intro hle
    unfold process_return
    rw [hfind]
    simp only [if_neg (not_lt.mpr hle)]
    rfl

/-- Claim C8 witness: returning 2 against the CONFIRMED OUT transaction 6
(returnable 2, nothing returned so far) succeeds and appends the PENDING IN
CUSTOMER_RETURN transaction. -/
theorem C8_witness :
    process_return 6 2 (fun _ => 0) wDBout = .ok { wDBout with
      transactions := wDBout.transactions ++
        [{ id := wDBout.next_txn_id
           transaction_number := genTransactionNumber 0
           item_master_id := wOutTxn.item_master_id
           order_id := wOutTxn.order_id
           transaction_type := "IN"
           transaction_sub_type := "CUSTOMER_RETURN"
           quantity := 2
           returnable_quantity := 0
           unit_cost := wOutTxn.unit_cost
           total_cost := 2 * wOutTxn.unit_cost
           reference_number := wOutTxn.transaction_number
           status := "PENDING" }]
      next_txn_id := wDBout.next_txn_id + 1 } :=
  (C8_process_return_behavior wDBout 6 2 (fun _ => 0) wOutTxn
    (by decide)).2 (by decide)

/-- Claim C2: provided every ledger row already satisfies the derived-column
equation, then after any successful mutating operation (transaction confirm,
fulfillItem, bulkFulfill, fulfillOrder) every ledger row still satisfies
available_quantity = current_quantity - reserved_quantity: each operation
recomputes the column in the same step that changes its inputs. -/
theorem C2_available_invariant (db : DB) (hinv : AvailConsistent db) :
    (∀ tid db', confirm_inventory_transaction tid db = .ok db' →
      AvailConsistent db') ∧
    (∀ oid iid fq ex times db',
      fulfill_order_item oid iid fq ex times db = .ok db' →
      AvailConsistent db') ∧
    (∀ oid times db', bulk_fulfill_order oid times db = .ok db' →
      AvailConsistent db') ∧
    (∀ oid times db', fulfill_order oid times db = .ok db' →
      AvailConsistent db') := by
  refine ⟨?_, ?_, ?_, ?_⟩
  · intro tid db' h
    obtain ⟨txn, hfind, hst, happly⟩ := confirm_inventory_transaction_ok h
    obtain ⟨row1, hmove, horders, hinvitems, htxns⟩ := confirmApply_ok happly
    intro r hr
    rw [hinvitems] at hr
    cases hfound : findInventoryItem db txn.item_master_id with
    | some r0 =>
      simp only [hfound] at hr
      exact all_updateFirst _ hinv (fun x _ => rfl) r hr
    | none =>
      simp only [hfound] at hr
      rcases List.mem_append.mp hr with hl | hl
      · exact hinv r hl
      · rcases List.mem_singleton.mp hl with rfl
        rfl
  · intro oid iid fq ex times db' h
    obtain ⟨order, order_item, hord, hit, hst, h1, h2, rfl⟩ :=
      fulfill_order_item_ok h
    intro r hr
    simp only [fulfillItemApply] at hr
    exact all_updateFirst _ hinv (fun x _ => rfl) r hr
  · intro oid times db' h
    obtain ⟨order, hord, hst, hiss, rfl⟩ := bulk_fulfill_order_ok h
    intro r hr
    simp only [bulkApply] at hr
    exact bulkProcessItems_inv_pres
      (fun r => r.available_quantity =
        r.current_quantity - r.reserved_quantity)
      (fun r q _ => rfl) _ _ _ _ hinv r hr
  · intro oid times db' h
    obtain ⟨order, hord, hst, hpre, happ⟩ := fulfill_order_ok h
    obtain ⟨res, hproc, rfl⟩ := fulfillOrderApply_ok happ
    intro r hr
    exact fulfillProcessItems_inv_pres
      (fun r => r.available_quantity =
        r.current_quantity - r.reserved_quantity)
      (fun r q _ => rfl) _ _ _ _ _ hproc hinv r hr

/-- Claim C2 witness: confirming the PENDING IN transaction 5 on a consistent
state yields a state in which every ledger row satisfies
available = current - reserved. -/
theorem C2_witness :
    AvailConsistent
      ((confirm_inventory_transaction 5 wDBin).toOption.getD wDBin) :=
  (C2_available_invariant wDBin (by unfold AvailConsistent; decide)).1 5
    ((confirm_inventory_transaction 5 wDBin).toOption.getD wDBin) (by rfl)

/-- Claim C6: on a PENDING order, fulfillItem fails with ExceedsRemaining
when fulfillQty exceeds requested minus fulfilled, fails with
InsufficientStock when fulfillQty plus extraQty exceeds the available stock,
and otherwise appends exactly one CONFIRMED OUT ORDER_FULFILLMENT
transaction linked to the order with quantity fulfillQty + extraQty and
returnable_quantity extraQty, decrements the ledger current_quantity by
fulfillQty + extraQty, increments the ledger returnable_quantity by
extraQty, and increments the order item's fulfilled_quantity by fulfillQty
(stated for a non-negative extraQty and an existing ledger row). -/
theorem C6_fulfill_item (db : DB) (oid iid : Nat) (fq ex : Qty)
    (times : Nat → Nat) (order : OrderRec) (order_item : OrderItemRec)
    (row : InventoryItemRow)
    (hord : findOrder db oid = some order)
    (hit : order.order_items.find? (fun it => it.id == iid) = some order_item)
    (hpend : order.order_status = "PENDING")
    (hrow : findInventoryItem db order_item.item_master_id = some row)
    (hex : 0 ≤ ex) :
    (fq > order_item.requested_quantity - order_item.fulfilled_quantity →
      fulfill_order_item oid iid fq ex times db =
        .error (.exceedsRemaining fq
          (order_item.requested_quantity - order_item.fulfilled_quantity))) ∧
    (fq ≤ order_item.requested_quantity - order_item.fulfilled_quantity →
      fq + ex > get_available_stock db order_item.item_master_id →
      fulfill_order_item oid iid fq ex times db =
        .error (.insufficientStockFulfill
          (get_available_stock db order_item.item_master_id) (fq + ex))) ∧
    (fq ≤ order_item.requested_quantity - order_item.fulfilled_quantity →
      fq + ex ≤ get_available_stock db order_item.item_master_id →
      ∃ db' row' item',
        fulfill_order_item oid iid fq ex times db = .ok db' ∧
        db'.transactions = db.transactions ++
          [{ id := db.next_txn_id
             transaction_number := genTransactionNumber (times 0)
             item_master_id := order_item.item_master_id
             order_id := some oid
             transaction_type := "OUT"
             transaction_sub_type := "ORDER_FULFILLMENT"
             quantity := fq + ex
             returnable_quantity := ex
             unit_cost := order_item.unit_price
             total_cost := (fq + ex) * order_item.unit_price
             reference_number := order.order_number
             status := "CONFIRMED" }] ∧
        findInventoryItem db' order_item.item_master_id = some row' ∧
        row'.current_quantity = row.current_quantity - (fq + ex) ∧
        row'.returnable_quantity = row.returnable_quantity + ex ∧
        findOrderItem db' oid iid = some item' ∧
        item'.fulfilled_quantity = order_item.fulfilled_quantity + fq) := by
  have hnp : ¬ order.order_status ≠ "PENDING" := by simp [hpend]
  refine ⟨?_, ?_, ?_⟩
  · intro hgt
    unfold fulfill_order_item
    rw [hord]
    simp only [hit, if_neg hnp, if_pos hgt]
  · intro hle hgt
    unfold fulfill_order_item
    rw [hord]
    simp only [hit, if_neg hnp, if_neg (not_lt.mpr hle), if_pos hgt]
  · intro hle1 hle2
    have hok : fulfill_order_item oid iid fq ex times db =
        .ok (fulfillItemApply oid iid fq ex times db order order_item) := by
      unfold fulfill_order_item
      rw [hord]
      simp only [hit, if_neg hnp, if_neg (not_lt.mpr hle1),
        if_neg (not_lt.mpr hle2)]
    have hrow' : db.inventory_items.find?
        (fun r => r.item_master_id == order_item.item_master_id) =
        some row := hrow
    have hord' : db.orders.find? (fun o => o.id == oid) = some order := hord
    have hfr : findInventoryItem
        (fulfillItemApply oid iid fq ex times db order order_item)
        order_item.item_master_id = some
          { row with
            current_quantity := row.current_quantity - (fq + ex)
            returnable_quantity :=
              if ex > 0 then row.returnable_quantity + ex
              else row.returnable_quantity
            available_quantity :=
              row.current_quantity - (fq + ex) - row.reserved_quantity } := by
      show (updateFirst
        (fun r => r.item_master_id == order_item.item_master_id) _
        db.inventory_items).find?
        (fun r => r.item_master_id == order_item.item_master_id) = _
      rw [find?_updateFirst_self ?hfa, hrow']
      · rfl
      case hfa => intro x hx; exact hx
    have hfi : findOrderItem
        (fulfillItemApply oid iid fq ex times db order order_item) oid iid =
        some { order_item with
          fulfilled_quantity := order_item.fulfilled_quantity + fq
          returnable_quantity :=
            if ex > 0 then order_item.returnable_quantity + ex
            else order_item.returnable_quantity
          status :=
            if order_item.fulfilled_quantity + fq ≥
                order_item.requested_quantity then "FULFILLED"
            else "PARTIAL" } := by
      show ((updateFirst (fun o => o.id == oid) _ db.orders).find?
        (fun o => o.id == oid)).bind _ = _
      rw [findOrder_update_self hord' ?hid]
      case hid => rfl
      show (updateFirst (fun it => it.id == iid) _
        order.order_items).find? (fun it => it.id == iid) = _
      rw [find?_updateFirst_self ?hf]
      · rw [hit]; rfl
      case hf =>
        intro x _
        have hkey := List.find?_some hit
        simpa using hkey
    refine ⟨_, _, _, hok, rfl, hfr, rfl, ?_, hfi, rfl⟩
    show (if ex > 0 then row.returnable_quantity + ex
      else row.returnable_quantity) = row.returnable_quantity + ex
    rcases lt_or_eq_of_le hex with hlt | heq0
    · rw [if_pos hlt]
    · rw [if_neg (by rw [← heq0]; exact lt_irrefl (0 : Qty)), ← heq0,
        add_zero]

/-- Claim C6 witness: fulfilling 3 of item line 1 with 1 extra unit on the
sample order succeeds, with the stated transaction, ledger and order-item
effects instantiated. -/
theorem C6_witness :
    ∃ db' row' item',
      fulfill_order_item 1 1 3 1 (fun _ => 0) wDB = .ok db' ∧
      db'.transactions = wDB.transactions ++
        [{ id := wDB.next_txn_id
           transaction_number := genTransactionNumber 0
           item_master_id := wItem1.item_master_id
           order_id := some 1
           transaction_type := "OUT"
           transaction_sub_type := "ORDER_FULFILLMENT"
           quantity := 3 + 1
           returnable_quantity := 1
           unit_cost := wItem1.unit_price
           total_cost := (3 + 1) * wItem1.unit_price
           reference_number := wOrder.order_number
           status := "CONFIRMED" }] ∧
      findInventoryItem db' wItem1.item_master_id = some row' ∧
      row'.current_quantity = wRow1.current_quantity - (3 + 1) ∧
      row'.returnable_quantity = wRow1.returnable_quantity + 1 ∧
      findOrderItem db' 1 1 = some item' ∧
      item'.fulfilled_quantity = wItem1.fulfilled_quantity + 3 :=
  (C6_fulfill_item wDB 1 1 3 1 (fun _ => 0) wOrder wItem1 wRow1 (by decide)
    (by decide) (by decide) (by decide) (by decide)).2.2 (by decide)
    (by decide)

/-- Claim C7 counterexample: fulfilling quantity 0 of line 1 on the sample
two-line order succeeds (nothing forbids a zero quantity), leaves
fulfilled_quantity at 0 of 5 requested, yet sets the item status to PARTIAL
where the spec's pure function gives PENDING, and sets the order status to
PROCESSING although no progress was made (the spec says it remains
PENDING). -/
theorem C7_counterexample :
    ((fulfill_order_item 1 1 0 0 (fun _ => 0) wDB).toOption.bind
      (fun db' => findOrderItem db' 1 1)).map
      (fun it => (it.status, it.fulfilled_quantity, it.requested_quantity)) =
      some ("PARTIAL", 0, 5) ∧
    specItemStatus 0 5 = "PENDING" ∧
    ((fulfill_order_item 1 1 0 0 (fun _ => 0) wDB).toOption.bind
      (fun db' => findOrder db' 1)).map (fun o => o.order_status) =
      some "PROCESSING" ∧
    ("PARTIAL" : String) ≠ "PENDING" ∧
    ("PROCESSING" : String) ≠ "PENDING" := by decide

/-- Claim C7 (amended): after a successful fulfillItem, the acted-on item's
status is FULFILLED iff its fulfilled_quantity has reached
requested_quantity and PARTIAL otherwise (even when fulfilled_quantity is
still 0), and the order status is FULFILLED iff every item has
fulfilled >= requested and PROCESSING otherwise (even when no progress was
made); after a successful bulkFulfill, every item with a positive remainder
is driven to fulfilled = requested with status FULFILLED, the other items
are untouched, and the order status becomes FULFILLED. -/
theorem C7_status_amended (db : DB) :
    (∀ oid iid fq ex times db',
      fulfill_order_item oid iid fq ex times db = .ok db' →
      ∀ order', findOrder db' oid = some order' →
        order'.order_status = (if order'.order_items.all (fun it =>
            decide (it.fulfilled_quantity ≥ it.requested_quantity))
          then "FULFILLED" else "PROCESSING") ∧
        ∀ item', order'.order_items.find? (fun it => it.id == iid) =
            some item' →
          item'.status =
            (if item'.fulfilled_quantity ≥ item'.requested_quantity
            then "FULFILLED" else "PARTIAL")) ∧
    (∀ oid times db' order,
      findOrder db oid = some order →
      bulk_fulfill_order oid times db = .ok db' →
      ∀ order', findOrder db' oid = some order' →
        order'.order_status = "FULFILLED" ∧
        order'.order_items = order.order_items.map (fun it =>
          if it.requested_quantity - it.fulfilled_quantity > 0 then
            { it with fulfilled_quantity := it.requested_quantity,
                      status := "FULFILLED" }
          else it)) := by
  constructor
  · intro oid iid fq ex times db' h order' horder'
    obtain ⟨order, order_item, hord, hit, hst, h1, h2, rfl⟩ :=
      fulfill_order_item_ok h
    have hord' : db.orders.find? (fun o => o.id == oid) = some order := hord
    simp only [findOrder, fulfillItemApply] at horder'
    rw [find?_updateFirst_self ?hfo] at horder'
    case hfo =>
      intro x _
      have hkey := List.find?_some hord'
      simpa using hkey
    rw [hord'] at horder'
    simp only [Option.map_some'] at horder'
    injection horder' with heq1
    subst heq1
    refine ⟨rfl, ?_⟩
    intro item' hitem'
    rw [show ({ order with
        order_items := updateFirst (fun it => it.id == iid)
          (fun _ => { order_item with
            fulfilled_quantity := order_item.fulfilled_quantity + fq
            returnable_quantity :=
              if ex > 0 then order_item.returnable_quantity + ex
              else order_item.returnable_quantity
            status :=
              if order_item.fulfilled_quantity + fq ≥
                  order_item.requested_quantity then "FULFILLED"
              else "PARTIAL" }) order.order_items
        order_status := _ } : OrderRec).order_items =
      updateFirst (fun it => it.id == iid)
        (fun _ => { order_item with
          fulfilled_quantity := order_item.fulfilled_quantity + fq
          returnable_quantity :=
            if ex > 0 then order_item.returnable_quantity + ex
            else order_item.returnable_quantity
          status :=
            if order_item.fulfilled_quantity + fq ≥
                order_item.requested_quantity then "FULFILLED"
            else "PARTIAL" }) order.order_items from rfl] at hitem'
    rw [find?_updateFirst_self ?hfi] at hitem'
    case hfi =>
      intro x _
      have hkey := List.find?_some hit
      simpa using hkey
    rw [hit] at hitem'
    simp only [Option.map_some'] at hitem'
    injection hitem' with heq2
    subst heq2
    rfl
  · intro oid times db' order hord h order' horder'
    obtain ⟨order0, hord0, hst0, hiss, rfl⟩ := bulk_fulfill_order_ok h
    rw [hord] at hord0
    injection hord0 with he
    subst he
    have hord' : db.orders.find? (fun o => o.id == oid) = some order := hord
    simp only [findOrder, bulkApply] at horder'
    rw [find?_updateFirst_self ?hfo] at horder'
    case hfo =>
      intro x _
      have hkey := List.find?_some hord'
      simpa using hkey
    rw [hord'] at horder'
    simp only [Option.map_some'] at horder'
    injection horder' with heq1
    subst heq1
    exact ⟨rfl, bulkProcessItems_items_eq order.order_items
      db.inventory_items db.next_txn_id 0⟩

/-- Claim C7 witness: fully fulfilling line 1 (5 of 5) on the sample order
instantiates the amended status rules on the resulting state. -/
theorem C7_witness :
    (((findOrder ((fulfill_order_item 1 1 5 0 (fun _ => 0)
        wDB).toOption.getD wDB) 1).getD wOrder).order_status =
      (if ((findOrder ((fulfill_order_item 1 1 5 0 (fun _ => 0)
          wDB).toOption.getD wDB) 1).getD wOrder).order_items.all (fun it =>
          decide (it.fulfilled_quantity ≥ it.requested_quantity))
        then "FULFILLED" else "PROCESSING")) ∧
    ∀ item', (((findOrder ((fulfill_order_item 1 1 5 0 (fun _ => 0)
        wDB).toOption.getD wDB) 1).getD wOrder).order_items.find?
        (fun it => it.id == 1)) = some item' →
      item'.status = (if item'.fulfilled_quantity ≥ item'.requested_quantity
        then "FULFILLED" else "PARTIAL") :=
  (C7_status_amended wDB).1 1 1 5 0 (fun _ => 0)
    ((fulfill_order_item 1 1 5 0 (fun _ => 0) wDB).toOption.getD wDB)
    (by rfl)
    ((findOrder ((fulfill_order_item 1 1 5 0 (fun _ => 0)
      wDB).toOption.getD wDB) 1).getD wOrder) (by rfl)

/-- Claim C3: on a PENDING order over a sane ledger (no negative stock, the
unwritten reserved_quantity zero), if any order item's remaining quantity
exceeds its available stock then bulkFulfill fails with the aggregate
InsufficientStock error, the issue list is non-empty and holds exactly the
offending items, and — the pre-check raising before any write, with the
request rolled back — no transaction is created and no ledger row or order
item is modified. -/
theorem C3_bulk_all_or_nothing (db : DB) (oid : Nat) (times : Nat → Nat)
    (order : OrderRec)
    (hres : ReservedZero db) (hcur : CurrentNonneg db)
    (hord : findOrder db oid = some order)
    (hpend : order.order_status = "PENDING")
    (hbad : ∃ it ∈ order.order_items,
      get_available_stock db it.item_master_id <
        it.requested_quantity - it.fulfilled_quantity) :
    bulk_fulfill_order oid times db =
      .error (.insufficientStockBulk (bulkIssues db order.order_items)) ∧
    bulkIssues db order.order_items ≠ [] ∧
    (∀ s, s ∈ bulkIssues db order.order_items ↔
      ∃ it ∈ order.order_items,
        get_available_stock db it.item_master_id <
          it.requested_quantity - it.fulfilled_quantity ∧
        s = { item_master_id := it.item_master_id
              needed := it.requested_quantity - it.fulfilled_quantity
              available := get_available_stock db it.item_master_id }) := by
  have hav := get_available_stock_nonneg hres hcur
  have hne : bulkIssues db order.order_items ≠ [] := by
    obtain ⟨it, hit, hoff⟩ := hbad
    intro hnil
    have hmem := (mem_bulkIssues hav _).mpr ⟨it, hit, hoff, rfl⟩
    rw [hnil] at hmem
    cases hmem
  refine ⟨?_, hne, fun s => mem_bulkIssues hav s⟩
  unfold bulk_fulfill_order
  rw [hord]
  simp only [if_neg (show ¬ order.order_status ≠ "PENDING" from by
    simp [hpend]), if_pos hne]

/-- Claim C3 witness: with only 1 unit of item 1 in stock against a line
requesting 5, bulkFulfill of the sample order fails with the aggregate
error. -/
theorem C3_witness :
    bulk_fulfill_order 1 (fun _ => 0) wDBshort =
      .error (.insufficientStockBulk
        (bulkIssues wDBshort wOrder.order_items)) :=
  (C3_bulk_all_or_nothing wDBshort 1 (fun _ => 0) wOrder
    (by unfold ReservedZero; decide) (by unfold CurrentNonneg; decide)
    (by decide) (by decide) (by decide)).1

/-- Claim C9 (code bug): generate_transaction_number derives the number from
the clock second alone, with no uniqueness counter.  Running bulkFulfill on
the two-line sample order with both generator calls observing the same
second (the real clock has one-second resolution and the loop runs far
faster than that) succeeds and creates two distinct transactions (primary
keys 1 and 2) carrying the identical number TXN987 — contradicting the
claimed within-run uniqueness (the unique transaction_number column would
in fact make the commit fail); the docstring of the generator itself
promises a unique number. -/
theorem C9_duplicate_numbers :
    genTransactionNumber 987 = "TXN987" ∧
    (bulk_fulfill_order 1 (fun _ => 987) wDB).toOption.map
      (fun db' => db'.transactions.map
        (fun t => (t.id, t.transaction_number))) =
      some [(1, "TXN987"), (2, "TXN987")] := by decide

/-- Claim C1 counterexample: from a sane state (stock 10, reserved 0) holding
a PENDING ADJUST transaction whose unvalidated quantity is -5, the confirm
operation succeeds and sets current_quantity to -5 < 0: an operation of this
core drives the ledger negative, so the claim as stated is false. -/
theorem C1_counterexample :
    ((confirm_inventory_transaction 7 wDBadj).toOption.bind
      (fun db' => findInventoryItem db' 1)).map
      (fun r => r.current_quantity) = some (-5) ∧
    ((-5 : Qty) < 0) := by decide

/-- Claim C1 (amended): over states whose ledger rows carry a zero
reserved_quantity (all rows this code creates do, and nothing writes the
field), an OUT movement never succeeds beyond the stock available at call
time: direct confirmation of an OUT transaction requires quantity at most
the available stock, fulfillItem requires fulfillQty + extraQty at most the
available stock, and the two whole-order entry points require every line's
needed quantity at most its available stock (fulfillOrder reading the
stored available_quantity, hence under row consistency).  Moreover,
current_quantity stays non-negative under every operation of the core,
provided confirmed transactions carry non-negative quantities and the
whole-order entry points act on orders without duplicate item lines (a
duplicate line or a negative ADJUST breaks it, per the counterexample). -/
theorem C1_no_overdraft_amended (db : DB) :
    (ReservedZero db →
      ∀ tid txn db', findTransaction db tid = some txn →
        txn.transaction_type = "OUT" →
        confirm_inventory_transaction tid db = .ok db' →
        txn.quantity ≤ get_available_stock db txn.item_master_id) ∧
    (∀ oid iid fq ex times db' order order_item,
      findOrder db oid = some order →
      order.order_items.find? (fun it => it.id == iid) = some order_item →
      fulfill_order_item oid iid fq ex times db = .ok db' →
      fq + ex ≤ get_available_stock db order_item.item_master_id) ∧
    (∀ oid times db' order, findOrder db oid = some order →
      bulk_fulfill_order oid times db = .ok db' →
      ∀ it ∈ order.order_items,
        0 < it.requested_quantity - it.fulfilled_quantity →
        it.requested_quantity - it.fulfilled_quantity ≤
          get_available_stock db it.item_master_id) ∧
    (AvailConsistent db →
      ∀ oid times db' order, findOrder db oid = some order →
        fulfill_order oid times db = .ok db' →
        ∀ it ∈ order.order_items,
          it.requested_quantity ≤ get_available_stock db it.item_master_id) ∧
    (ReservedZero db → CurrentNonneg db →
      (∀ tid txn db', findTransaction db tid = some txn →
        0 ≤ txn.quantity →
        confirm_inventory_transaction tid db = .ok db' →
        CurrentNonneg db') ∧
      (∀ i tt ts q rq uc rn times db',
        create_inventory_transaction i tt ts q rq uc rn times db = .ok db' →
        CurrentNonneg db') ∧
      (∀ tid q times db', process_return tid q times db = .ok db' →
        CurrentNonneg db') ∧
      (∀ oid iid fq ex times db',
        fulfill_order_item oid iid fq ex times db = .ok db' →
        CurrentNonneg db') ∧
      (∀ oid times db' order, findOrder db oid = some order →
        (order.order_items.map (fun it => it.item_master_id)).Nodup →
        bulk_fulfill_order oid times db = .ok db' →
        CurrentNonneg db') ∧
      (AvailConsistent db →
        ∀ oid times db' order, findOrder db oid = some order →
          (order.order_items.map (fun it => it.item_master_id)).Nodup →
          fulfill_order oid times db = .ok db' →
          CurrentNonneg db')) := by
  refine ⟨?_, ?_, ?_, ?_, ?_⟩
  · -- direct confirm of an OUT transaction
    intro hrz tid txn db' hfind hout hok
    obtain ⟨txn0, hfind0, hst0, happ⟩ := confirm_inventory_transaction_ok hok
    rw [hfind] at hfind0
    injection hfind0 with he
    subst he
    obtain ⟨row1, hmove, _, _, _⟩ := confirmApply_ok happ
    unfold applyMovement at hmove
    rw [if_neg (by simp [hout]), if_pos hout] at hmove
    unfold get_available_stock availOf
    cases hrowf : findInventoryItem db txn.item_master_id with
    | some row =>
      rw [hrowf, Option.getD_some] at hmove
      have hrowf' : db.inventory_items.find?
          (fun r => r.item_master_id == txn.item_master_id) =
          some row := hrowf
      simp only [hrowf']
      by_cases hlt : row.current_quantity < txn.quantity
      · rw [if_pos hlt] at hmove; cases hmove
      · have hz := hrz row (List.mem_of_find?_eq_some hrowf')
        rw [hz, sub_zero]
        exact not_lt.mp hlt
    | none =>
      rw [hrowf, Option.getD_none] at hmove
      have hrowf' : db.inventory_items.find?
          (fun r => r.item_master_id == txn.item_master_id) =
          none := hrowf
      simp only [hrowf']
      by_cases hlt : (lazyRow txn.item_master_id).current_quantity <
          txn.quantity
      · rw [if_pos hlt] at hmove; cases hmove
      · exact not_lt.mp hlt
  · -- fulfillItem checks the live available stock
    intro oid iid fq ex times db' order order_item hord hit hok
    obtain ⟨order0, item0, hord0, hit0, _, _, h2, _⟩ :=
      fulfill_order_item_ok hok
    rw [hord] at hord0
    injection hord0 with he
    subst he
    rw [hit] at hit0
    injection hit0 with he2
    subst he2
    exact h2
  · -- bulkFulfill pre-checks every line with a positive remainder
    intro oid times db' order hord hok it hit hrem
    obtain ⟨order0, hord0, _, hiss, _⟩ := bulk_fulfill_order_ok hok
    rw [hord] at hord0
    injection hord0 with he
    subst he
    exact bulkIssues_nil_bound hiss it hit hrem
  · -- fulfillOrder pre-checks every line against the stored available
    intro hcons oid times db' order hord hok it hit
    obtain ⟨order0, hord0, _, hpre, _⟩ := fulfill_order_ok hok
    rw [hord] at hord0
    injection hord0 with he
    subst he
    obtain ⟨r, hfindr, hle⟩ := fulfillOrderPrecheck_none hpre it hit
    have hfindr' : db.inventory_items.find?
        (fun r => r.item_master_id == it.item_master_id) = some r := hfindr
    unfold get_available_stock availOf
    simp only [hfindr']
    rw [← hcons r (List.mem_of_find?_eq_some hfindr')]
    exact hle
  · -- non-negativity of current_quantity
    intro hrz hcur
    refine ⟨?_, ?_, ?_, ?_, ?_, ?_⟩
    · intro tid txn db' hfind hq hok
      obtain ⟨txn0, hfind0, hst0, happ⟩ :=
        confirm_inventory_transaction_ok hok
      rw [hfind] at hfind0
      injection hfind0 with he
      subst he
      obtain ⟨row1, hmove, _, hinvitems, _⟩ := confirmApply_ok happ
      intro r hr
      rw [hinvitems] at hr
      cases hrowf : findInventoryItem db txn.item_master_id with
      | some row =>
        simp only [hrowf] at hr
        rw [hrowf, Option.getD_some] at hmove
        have hrowf' : db.inventory_items.find?
            (fun r => r.item_master_id == txn.item_master_id) =
            some row := hrowf
        refine all_updateFirst _ hcur (fun x _ => ?_) r hr
        show 0 ≤ row1.current_quantity
        exact applyMovement_nonneg hmove hq
          (hcur row (List.mem_of_find?_eq_some hrowf'))
      | none =>
        simp only [hrowf] at hr
        rw [hrowf, Option.getD_none] at hmove
        rcases List.mem_append.mp hr with hl | hl
        · exact hcur r hl
        · rcases List.mem_singleton.mp hl with rfl
          show 0 ≤ row1.current_quantity
          exact applyMovement_nonneg hmove hq le_rfl
    · intro i tt ts q rq uc rn times db' hok
      obtain ⟨hinvitems, _⟩ := create_inventory_transaction_ok hok
      intro r hr
      rw [hinvitems] at hr
      exact hcur r hr
    · intro tid q times db' hok
      obtain ⟨orig, _, _, rfl⟩ := process_return_ok hok
      intro r hr
      exact hcur r hr
    · intro oid iid fq ex times db' hok
      obtain ⟨order, order_item, hord, hit, _, _, h2, rfl⟩ :=
        fulfill_order_item_ok hok
      intro r hr
      simp only [fulfillItemApply] at hr
      refine all_updateFirst _ hcur (fun x hx => ?_) r hr
      have hz := hrz x (List.mem_of_find?_eq_some hx)
      have hav : get_available_stock db order_item.item_master_id =
          x.current_quantity := by
        unfold get_available_stock availOf
        rw [hx]
        simp [hz]
      rw [hav] at h2
      show 0 ≤ x.current_quantity - (fq + ex)
      exact sub_nonneg.mpr h2
    · intro oid times db' order hord hnd hok
      obtain ⟨order0, hord0, _, hiss, rfl⟩ := bulk_fulfill_order_ok hok
      rw [hord] at hord0
      injection hord0 with he
      subst he
      intro r hr
      simp only [bulkApply] at hr
      exact bulkProcessItems_nonneg order.order_items db.inventory_items
        db.next_txn_id 0 hcur hrz hnd
        (bulkIssues_nil_bound hiss) r hr
    · intro hcons oid times db' order hord hnd hok
      obtain ⟨order0, hord0, _, hpre, happ⟩ := fulfill_order_ok hok
      rw [hord] at hord0
      injection hord0 with he
      subst he
      obtain ⟨res, hproc, rfl⟩ := fulfillOrderApply_ok happ
      intro r hr
      refine fulfillProcessItems_nonneg order.order_items db.inventory_items
        db.next_txn_id 0 res hproc hcur hrz hnd ?_ r hr
      intro it hit
      obtain ⟨r0, hfindr0, hle⟩ := fulfillOrderPrecheck_none hpre it hit
      have hfindr0' : db.inventory_items.find?
          (fun r => r.item_master_id == it.item_master_id) = some r0 :=
        hfindr0
      show it.requested_quantity ≤ availOf db.inventory_items
        it.item_master_id
      unfold availOf
      simp only [hfindr0']
      rw [← hcons r0 (List.mem_of_find?_eq_some hfindr0')]
      exact hle

/-- Claim C1 witness: a concrete instance of the amended claim at the sample
state: creating a manual transaction keeps every current_quantity
non-negative. -/
theorem C1_witness :
    CurrentNonneg
      ((create_inventory_transaction 1 "IN" "PURCHASE" 3 0 5 "" (fun _ => 0)
        wDB).toOption.getD wDB) :=
  ((C1_no_overdraft_amended wDB).2.2.2.2 (by unfold ReservedZero; decide)
    (by unfold CurrentNonneg; decide)).2.1 1 "IN" "PURCHASE" 3 0 5 ""
    (fun _ => 0)
    ((create_inventory_transaction 1 "IN" "PURCHASE" 3 0 5 "" (fun _ => 0)
      wDB).toOption.getD wDB) (by rfl)

/-- Claim C10: a successful fulfillItem that leaves some line of the order
short sets the order status to PROCESSING; every one of the three
fulfillment entry points rejects a non-PENDING order with the
order-not-pending error (changing no state, as errors commit nothing); and
no operation of the core ever changes the status of a non-PENDING order, so
a partially fulfilled order can never be fulfilled further through these
entry points.  (For fulfillItem the rejection is stated for an existing
order line: a call naming a nonexistent line fails earlier with NotFound,
since the line is looked up before the status check.) -/
theorem C10_partial_order_frozen (db : DB) :
    (∀ oid iid fq ex times db',
      fulfill_order_item oid iid fq ex times db = .ok db' →
      ∀ order', findOrder db' oid = some order' →
      (∃ it ∈ order'.order_items,
        it.fulfilled_quantity < it.requested_quantity) →
      order'.order_status = "PROCESSING") ∧
    (∀ oid order, findOrder db oid = some order →
      order.order_status ≠ "PENDING" →
      (∀ iid fq ex times order_item,
        order.order_items.find? (fun it => it.id == iid) = some order_item →
        fulfill_order_item oid iid fq ex times db =
          .error .orderNotPending) ∧
      (∀ times, bulk_fulfill_order oid times db =
        .error .orderNotPending) ∧
      (∀ times, fulfill_order oid times db = .error .orderNotPending)) ∧
    (∀ oid order, findOrder db oid = some order →
      order.order_status ≠ "PENDING" →
      (∀ tid db', confirm_inventory_transaction tid db = .ok db' →
        ∃ o', findOrder db' oid = some o' ∧
          o'.order_status = order.order_status) ∧
      (∀ i tt ts q rq uc rn times db',
        create_inventory_transaction i tt ts q rq uc rn times db = .ok db' →
        ∃ o', findOrder db' oid = some o' ∧
          o'.order_status = order.order_status) ∧
      (∀ tid q times db', process_return tid q times db = .ok db' →
        ∃ o', findOrder db' oid = some o' ∧
          o'.order_status = order.order_status) ∧
      (∀ oid2 iid fq ex times db',
        fulfill_order_item oid2 iid fq ex times db = .ok db' →
        ∃ o', findOrder db' oid = some o' ∧
          o'.order_status = order.order_status) ∧
      (∀ oid2 times db', bulk_fulfill_order oid2 times db = .ok db' →
        ∃ o', findOrder db' oid = some o' ∧
          o'.order_status = order.order_status) ∧
      (∀ oid2 times db', fulfill_order oid2 times db = .ok db' →
        ∃ o', findOrder db' oid = some o' ∧
          o'.order_status = order.order_status)) := by
  refine ⟨?_, ?_, ?_⟩
  · -- a short line after success forces PROCESSING
    intro oid iid fq ex times db' h order' horder' hshort
    obtain ⟨order, order_item, hord, hit, hst, h1, h2, rfl⟩ :=
      fulfill_order_item_ok h
    have hord' : db.orders.find? (fun o => o.id == oid) = some order := hord
    simp only [findOrder, fulfillItemApply] at horder'
    rw [find?_updateFirst_self ?hfo] at horder'
    case hfo =>
      intro x _
      have hkey := List.find?_some hord'
      simpa using hkey
    rw [hord'] at horder'
    simp only [Option.map_some'] at horder'
    injection horder' with heq1
    subst heq1
    obtain ⟨it, hitmem, hlt⟩ := hshort
    have hfalse : (updateFirst (fun it => it.id == iid)
        (fun _ => { order_item with
          fulfilled_quantity := order_item.fulfilled_quantity + fq
          returnable_quantity :=
            if ex > 0 then order_item.returnable_quantity + ex
            else order_item.returnable_quantity
          status :=
            if order_item.fulfilled_quantity + fq ≥
                order_item.requested_quantity then "FULFILLED"
            else "PARTIAL" }) order.order_items).all
        (fun it => decide (it.fulfilled_quantity ≥ it.requested_quantity)) =
        false := by
      by_contra hbc
      have htrue := eq_true_of_ne_false hbc
      have := List.all_eq_true.mp htrue it hitmem
      exact absurd (of_decide_eq_true this) (not_le.mpr hlt)
    show (if _ = true then _ else _) = _
    rw [hfalse]
    simp
  · -- the three entry points reject a non-PENDING order
    intro oid order hord hne
    refine ⟨?_, ?_, ?_⟩
    · intro iid fq ex times order_item hitem
      exact fulfill_order_item_not_pending hord hitem hne
    · intro times
      exact bulk_fulfill_order_not_pending hord hne
    · intro times
      exact fulfill_order_not_pending hord hne
  · -- no operation revives a non-PENDING order
    intro oid order hord hne
    refine ⟨?_, ?_, ?_, ?_, ?_, ?_⟩
    · intro tid db' h
      obtain ⟨txn, _, _, happ⟩ := confirm_inventory_transaction_ok h
      obtain ⟨row1, _, horders, _, _⟩ := confirmApply_ok happ
      refine ⟨order, ?_, rfl⟩
      show db'.orders.find? (fun o => o.id == oid) = some order
      rw [horders]
      exact hord
    · intro i tt ts q rq uc rn times db' h
      obtain ⟨_, horders⟩ := create_inventory_transaction_ok h
      refine ⟨order, ?_, rfl⟩
      show db'.orders.find? (fun o => o.id == oid) = some order
      rw [horders]
      exact hord
    · intro tid q times db' h
      obtain ⟨orig, _, _, rfl⟩ := process_return_ok h
      exact ⟨order, hord, rfl⟩
    · intro oid2 iid fq ex times db' h
      obtain ⟨order2, item2, hord2, hit2, hst2, _, _, rfl⟩ :=
        fulfill_order_item_ok h
      by_cases he : oid = oid2
      · subst he
        rw [hord2] at hord
        injection hord with he2
        exact absurd (he2 ▸ hst2) hne
      · refine ⟨order, ?_, rfl⟩
        have hord2' : db.orders.find? (fun o => o.id == oid2) =
            some order2 := hord2
        show (updateFirst (fun o => o.id == oid2) _ db.orders).find?
          (fun o => o.id == oid) = some order
        rw [findOrder_update_of_ne ?hid he]
        · exact hord
        case hid =>
          have hkey := List.find?_some hord2'
          simpa using hkey
    · intro oid2 times db' h
      obtain ⟨order2, hord2, hst2, _, rfl⟩ := bulk_fulfill_order_ok h
      by_cases he : oid = oid2
      · subst he
        rw [hord2] at hord
        injection hord with he2
        exact absurd (he2 ▸ hst2) hne
      · refine ⟨order, ?_, rfl⟩
        have hord2' : db.orders.find? (fun o => o.id == oid2) =
            some order2 := hord2
        show (updateFirst (fun o => o.id == oid2) _ db.orders).find?
          (fun o => o.id == oid) = some order
        rw [findOrder_update_of_ne ?hid2 he]
        · exact hord
        case hid2 =>
          have hkey := List.find?_some hord2'
          simpa using hkey
    · intro oid2 times db' h
      obtain ⟨order2, hord2, hst2, hpre, happ⟩ := fulfill_order_ok h
      obtain ⟨res, hproc, rfl⟩ := fulfillOrderApply_ok happ
      by_cases he : oid = oid2
      · subst he
        rw [hord2] at hord
        injection hord with he2
        exact absurd (he2 ▸ hst2) hne
      · refine ⟨order, ?_, rfl⟩
        have hord2' : db.orders.find? (fun o => o.id == oid2) =
            some order2 := hord2
        show (updateFirst (fun o => o.id == oid2) _ db.orders).find?
          (fun o => o.id == oid) = some order
        rw [findOrder_update_of_ne ?hid3 he]
        · exact hord
        case hid3 =>
          have hkey := List.find?_some hord2'
          simpa using hkey

/-- Claim C10 witness: bulkFulfill and fulfillOrder on the PROCESSING sample
order 2 fail with the order-not-pending error. -/
theorem C10_witness :
    bulk_fulfill_order 2 (fun _ => 0) wDBproc = .error .orderNotPending ∧
    fulfill_order 2 (fun _ => 0) wDBproc = .error .orderNotPending :=
  ⟨((C10_partial_order_frozen wDBproc).2.1 2 wOrderProc (by decide)
      (by decide)).2.1 (fun _ => 0),
   ((C10_partial_order_frozen wDBproc).2.1 2 wOrderProc (by decide)
      (by decide)).2.2 (fun _ => 0)⟩

end DigiAssets
